import Mathlib

/-!
Verification of the `UniversalLoader` data pipeline (`data_loader.py`, `config.py`).

This file gives a shallow embedding of the loader's merge/deduplication step
(`_merge_data`), the per-type cleaners (`_clean_report`, `_clean_invoice`,
`_clean_details` semantics where needed), the JSON ingestion
(`_process_json_file`), the content-based classifier (`_is_report`,
`_is_details`, `_is_invoice`), the enrichment step (`enrich_data`, including
member-identity resolution with carrier RFM backfill), and the parquet cache
round trip of `scan_and_load`, together with theorems about the claimed
invariants.

Modelling conventions:
  * A pandas frame is a `List` of row structures; every canonical column is a
    structure field (frames that lack a column entirely are represented by
    all-`none` fields where the code's behaviour coincides, and noted where
    it does not).
  * A missing cell (`NaN`/`NaT`/`None`) is `Option.none`; Python's
    `str(...)`/`astype(str)` view of a missing cell is the literal string
    `"nan"` (`pyStr`).
  * Timestamps are encoded as `Nat` values `yyyymmddhhmm` (e.g. 12:00 on
    2025-10-01 is `202510011200`); the date part is the quotient by `10000`.
    This encoding is monotone in time, which is all the code uses
    (`max`, `nunique` of the date part, `strftime` splitting).
  * Monetary amounts and quantities are `Int` (string-to-number coercion of
    `_to_numeric` is applied before the modelled boundary).
  * `pandas.sort_values` is modelled by `List.insertionSort` (a stable sort);
    all theorems rely only on the permutation and sortedness properties, which
    hold for any pandas sort kind.
  * String operations (`strip`, `lower`, `upper`, `in`, comparison) are
    re-implemented structurally over `String.data` so that they are fully
    computable by the kernel; they agree with Python's semantics on the
    ASCII/CJK data the pipeline handles.
-/

/-! ### Python-style string primitives -/

/-- Python `str()` view of a possibly missing cell: `NaN` prints as `"nan"`. -/
def pyStr : Option String → String
  | none => "nan"
  | some s => s

/-- Characters removed by Python `str.strip()` (ASCII whitespace). -/
def isStripChar (c : Char) : Bool :=
  c == ' ' || c == '\t' || c == '\n' || c == '\r'

/-- Python `str.strip()`. -/
def pyTrim (s : String) : String :=
  ⟨(((s.data.dropWhile isStripChar).reverse).dropWhile isStripChar).reverse⟩

/-- Python `str.replace(' ', '')`: remove every space. -/
def removeSpaces (s : String) : String :=
  ⟨s.data.filter (fun c => !(c == ' '))⟩

/-- The 26 ASCII case pairs, used to embed Python `str.lower`/`str.upper`. -/
def casePairs : List (Char × Char) :=
  [('A', 'a'), ('B', 'b'), ('C', 'c'), ('D', 'd'), ('E', 'e'), ('F', 'f'),
   ('G', 'g'), ('H', 'h'), ('I', 'i'), ('J', 'j'), ('K', 'k'), ('L', 'l'),
   ('M', 'm'), ('N', 'n'), ('O', 'o'), ('P', 'p'), ('Q', 'q'), ('R', 'r'),
   ('S', 's'), ('T', 't'), ('U', 'u'), ('V', 'v'), ('W', 'w'), ('X', 'x'),
   ('Y', 'y'), ('Z', 'z')]

/-- ASCII lower-casing of one character (CJK characters are unaffected, as in
Python). -/
def lowerChar (c : Char) : Char :=
  match casePairs.find? (fun p => p.1 == c) with
  | some p => p.2
  | none => c

/-- ASCII upper-casing of one character. -/
def upperChar (c : Char) : Char :=
  match casePairs.find? (fun p => p.2 == c) with
  | some p => p.1
  | none => c

/-- Python `str.lower()` on the ASCII range. -/
def asciiLower (s : String) : String :=
  ⟨s.data.map lowerChar⟩

/-- Python `str.upper()` on the ASCII range. -/
def asciiUpper (s : String) : String :=
  ⟨s.data.map upperChar⟩

/-- `c` is an ASCII uppercase letter. -/
def isUpperAscii (c : Char) : Bool :=
  casePairs.any (fun p => p.1 == c)

/-- The string contains no ASCII uppercase letter (i.e. it is unchanged by
lower-casing). -/
def noUpper (s : String) : Bool :=
  !(s.data.any isUpperAscii)

/-- Python `needle in hay` on character lists: does `needle` occur contiguously
inside `hay`? -/
def startsWithCL : List Char → List Char → Bool
  | [], _ => true
  | _ :: _, [] => false
  | a :: as, b :: bs => a == b && startsWithCL as bs

def containsCL : List Char → List Char → Bool
  | hay, needle =>
    if startsWithCL needle hay then true
    else
      match hay with
      | [] => false
      | _ :: t => containsCL t needle

/-- Python `needle in hay` for strings. -/
def strContains (hay needle : String) : Bool :=
  containsCL hay.data needle.data

/-- Python `s.startswith(pat)` for strings. -/
def strStartsWith (s pat : String) : Bool :=
  startsWithCL pat.data s.data

/-- `s` consists only of decimal digits and is nonempty (Python
`str.isdigit()` on ASCII data; the empty string is not a digit string). -/
def isDigits (s : String) : Bool :=
  !s.data.isEmpty && s.data.all (fun c => 48 ≤ c.toNat && c.toNat ≤ 57)

/-- Strict lexicographic comparison of character lists by code point
(Python string `<`). -/
def ltCL : List Char → List Char → Bool
  | [], [] => false
  | [], _ :: _ => true
  | _ :: _, [] => false
  | a :: as, b :: bs =>
    if a.toNat < b.toNat then true
    else if b.toNat < a.toNat then false
    else ltCL as bs

/-- Python string `<`. -/
def strLtB (a b : String) : Bool :=
  ltCL a.data b.data

/-- Python string `<=`, as the negation of the converse strict comparison. -/
def strLeB (a b : String) : Bool :=
  !(strLtB b a)

/-! ### `drop_duplicates` machinery

`pandas.DataFrame.drop_duplicates(subset=[k], keep='first')` keeps, for every
key value, the first row carrying it, preserving the order of the kept rows;
`keep='last'` keeps the last row per key. -/

/-- `drop_duplicates(subset, keep='first')`, with an accumulator of keys
already seen. -/
def dedupByAux {α : Type} (key : α → String) : List α → List String → List α
  | [], _ => []
  | r :: t, seen =>
    if key r ∈ seen then dedupByAux key t seen
    else r :: dedupByAux key t (key r :: seen)

def dedupBy {α : Type} (key : α → String) (l : List α) : List α :=
  dedupByAux key l []

/-- `drop_duplicates(subset, keep='last')`: keep a row iff its key does not
recur later. -/
def dedupByLast {α : Type} (key : α → String) : List α → List α
  | [] => []
  | r :: t =>
    if (t.map key).contains (key r) then dedupByLast key t
    else r :: dedupByLast key t

/-! ### Data model

Rows of the three consolidated frames, after synonym mapping.  Fields carry
the canonical column names of `config.COLUMN_MAPPING`; a value of `none` is a
missing cell (`NaN`).  Unmodelled columns (`tax_id`, `source_id`, `Day_Type`,
`Period`) do not interact with any verified property. -/

structure ReportRow where
  order_id : String
  date : Option Nat
  total_amount : Int
  status : Option String
  order_type : Option String
  people_count : Option Int
  payment_method : Option String
  member_phone : Option String
  customer_name : Option String
  carrier_id : Option String
  invoice_id : Option String
  data_source : Option String
  deriving DecidableEq

structure DetailsRow where
  order_id : String
  date : Option Nat
  status : Option String
  item_name : Option String
  sku : Option String
  qty : Int
  unit_price : Int
  item_total : Int
  options : Option String
  item_type : Option String
  order_type : Option String
  data_source : Option String
  deriving DecidableEq

structure InvoiceRow where
  invoice_id : String
  carrier_id : Option String
  date : Option Nat
  deriving DecidableEq

/-! ### Per-type cleaners (`_clean_report`, `_clean_invoice`, `_clean_details`) -/

/-- Invalid statuses excluded from the report frame
(`_clean_report`, v2.3.8 relaxed filter). -/
def invalidReportStatuses : List String :=
  ["已取消", "cancelled", "void", "delete", "deleted", "已關閉", "closed"]

/-- Invalid statuses excluded from the details frame (`_clean_details`). -/
def invalidDetailsStatuses : List String :=
  ["已取消", "cancelled", "void", "已退菜", "退菜", "已關閉", "closed"]

/-- Left-pad with zeros to four digits (`strftime('%H%M')`). -/
def pad4 (n : Nat) : String :=
  let s := toString n
  ⟨List.replicate (4 - s.length) '0' ++ s.data⟩

/-- The composite order id `{date:%Y%m%d}-{oid}-{time:%H%M}` built by
`make_unique_id` for short purely-numeric POS order numbers (the timestamp
encoding `yyyymmddhhmm` splits as quotient/remainder by `10000`). -/
def compositeId (dt : Nat) (oid : String) : String :=
  toString (dt / 10000) ++ "-" ++ oid ++ "-" ++ pad4 (dt % 10000)

/-- `make_unique_id` applied to one row: rewrite a short numeric id when a
valid date is present. -/
def makeUniqueId (dt : Option Nat) (oid : String) : String :=
  match dt with
  | some d => if isDigits oid && decide (oid.length ≤ 4) then compositeId d oid else oid
  | none => oid

/-- `str.strip().str.lower()` normalisation of the status column
(`astype(str)` renders a missing cell as `"nan"`). -/
def normStatus (s : Option String) : String :=
  asciiLower (pyTrim (pyStr s))

/-- `_clean_report`: strip `order_id`, drop literal-`"nan"` ids, disambiguate
short numeric ids with the date, coerce `people_count` (`NaN → 0`), normalise
`status` and drop rows with an invalid status.  Date parsing and
`_to_numeric` on `total_amount` are identities under the modelling
conventions. -/
def cleanReport (rows : List ReportRow) : List ReportRow :=
  let r1 := rows.map (fun r => { r with order_id := pyTrim r.order_id })
  let r2 := r1.filter (fun r => !(r.order_id == "nan"))
  let r3 := r2.map (fun r => { r with order_id := makeUniqueId r.date r.order_id })
  let r4 := r3.map (fun r => { r with people_count := some (r.people_count.getD 0) })
  let r5 := r4.map (fun r => { r with status := some (normStatus r.status) })
  r5.filter (fun r => !(invalidReportStatuses.contains (pyStr r.status)))

/-- `_clean_details`: same order-id normalisation, quantity coercion, and its
own invalid-status filter. -/
def cleanDetails (rows : List DetailsRow) : List DetailsRow :=
  let r1 := rows.map (fun r => { r with order_id := pyTrim r.order_id })
  let r2 := r1.filter (fun r => !(r.order_id == "nan"))
  let r3 := r2.map (fun r => { r with order_id := makeUniqueId r.date r.order_id })
  let r4 := r3.map (fun r => { r with status := some (normStatus r.status) })
  r4.filter (fun r => !(invalidDetailsStatuses.contains (pyStr r.status)))

/-- `str.replace(r'\.0$', '')`: drop a trailing `".0"`. -/
def dropDotZero (s : String) : String :=
  if s.data.length ≥ 2 && startsWithCL ['.', '0'] (s.data.drop (s.data.length - 2)) then
    ⟨s.data.take (s.data.length - 2)⟩
  else s

/-- `_clean_invoice`: stringify ids (dropping a float `".0"` suffix), strip,
drop `"nan"` ids, and stringify-strip the carrier (a missing carrier cell
becomes the literal string `"nan"`, as `astype(str)` does). -/
def cleanInvoice (rows : List InvoiceRow) : List InvoiceRow :=
  let r1 := rows.map (fun r =>
    { r with invoice_id := pyTrim (dropDotZero r.invoice_id),
             carrier_id := some (pyTrim (pyStr r.carrier_id)) })
  r1.filter (fun r => !(r.invoice_id == "nan"))

/-! ### JSON ingestion (`_process_json_file`)

One JSON payload is a list of order objects; absent JSON keys are embedded as
the Python defaults the code supplies (`''`, `0`, `[]`).  `product_name` is
represented by its `default`/`zh_TW` variants; a modifier contributes its
`value_name.zh_TW` string.  The field `otype` stands for the JSON key
`type` (a reserved word here). -/

structure JsonSubItem where
  name_default : String
  name_zh : String
  product_code : String
  quantity : Int
  price : Int
  price_total : Int
  modifiers : List String
  deriving DecidableEq

structure JsonItem where
  product_name : String
  product_code : String
  quantity : Int
  price : Int
  price_total : Int
  modifiers : List String
  is_combo : Bool
  bundled : List JsonSubItem
  deriving DecidableEq

structure JsonOrder where
  status : String
  short_code : String
  oid : String
  created_at : Option Nat
  total_price : Int
  otype : String
  party_size : Int
  payments : List String
  phone_number : String
  first_name : String
  invoice_list : List String
  line_items : List JsonItem
  deriving DecidableEq

/-- Python `s[-6:]`. -/
def strTakeRight (s : String) (n : Nat) : String :=
  ⟨s.data.drop (s.data.length - n)⟩

/-- Order-id selection and composite-id disambiguation for one JSON order. -/
def jsonOrderId (o : JsonOrder) : String :=
  let oid0 := if o.short_code == "" then strTakeRight o.oid 6 else o.short_code
  match o.created_at with
  | some dt => if isDigits oid0 && decide (oid0.length ≤ 4) then compositeId dt oid0 else oid0
  | none => oid0

/-- The `type` → order-type mapping of `_process_json_file`. -/
def jsonOrderType (t : String) : String :=
  if t == "dine_in" then "內用"
  else if t == "takeout" then "外帶"
  else if t == "delivery" then "外送"
  else if t == "pick_up" then "自取"
  else t

/-- The report row built for one `COMPLETED` JSON order. -/
def jsonReportRow (o : JsonOrder) : ReportRow :=
  { order_id := jsonOrderId o
    date := o.created_at
    total_amount := o.total_price
    status := some o.status
    order_type := some (jsonOrderType o.otype)
    people_count := some o.party_size
    payment_method := some (o.payments.headD "")
    member_phone := some o.phone_number
    customer_name := some o.first_name
    carrier_id := none
    invoice_id := some (o.invoice_list.headD "")
    data_source := some "json" }

/-- The details rows of one JSON line item (the item itself followed by its
bundled sub-items, whose quantity is multiplied by the parent quantity). -/
def jsonItemRows (o : JsonOrder) (it : JsonItem) : List DetailsRow :=
  { order_id := jsonOrderId o
    date := o.created_at
    status := some o.status
    item_name := some it.product_name
    sku := some it.product_code
    qty := it.quantity
    unit_price := it.price
    item_total := it.price_total
    options := some (String.intercalate ", " it.modifiers)
    item_type := some (if it.is_combo then "Combo Item" else "Normal")
    order_type := none
    data_source := some "json" } ::
  it.bundled.map (fun b =>
    { order_id := jsonOrderId o
      date := o.created_at
      status := some o.status
      item_name := some (if b.name_default == "" then b.name_zh else b.name_default)
      sku := some b.product_code
      qty := b.quantity * it.quantity
      unit_price := b.price
      item_total := b.price_total
      options := some (String.intercalate ", " b.modifiers)
      item_type := some "Combo Item"
      order_type := none
      data_source := some "json" })

/-- `_process_json_file` on one payload: keep only `COMPLETED` orders and emit
one report chunk and one details chunk. -/
def processJsonOrders (orders : List JsonOrder) : List ReportRow × List DetailsRow :=
  let completed := orders.filter (fun o => o.status == "COMPLETED")
  (completed.map jsonReportRow, (completed.map (fun o => o.line_items.map (jsonItemRows o))).flatten.flatten)

/-! ### Merge and deduplication (`_merge_data`) -/

/-- `replace({'': pd.NA, 'nan': pd.NA})` on one cell. -/
def normCell : Option String → Option String
  | none => none
  | some s => if s == "" || s == "nan" then none else some s

/-- `data_source` fill: the column is created as `'csv'` when absent and
`fillna('csv')` otherwise. -/
def fillSource (r : ReportRow) : ReportRow :=
  { r with data_source := some (r.data_source.getD "csv") }

def fillSourceD (r : DetailsRow) : DetailsRow :=
  { r with data_source := some (r.data_source.getD "csv") }

/-- The string sort key of the `data_source` column. -/
def srcStr (r : ReportRow) : String :=
  r.data_source.getD ""

/-- `sort_values(by=['order_id', 'data_source'], ascending=[True, False])`:
row `a` may precede row `b`. -/
def reportLEb (a b : ReportRow) : Bool :=
  strLtB a.order_id b.order_id ||
    (a.order_id == b.order_id && strLeB (srcStr b) (srcStr a))

def reportLE (a b : ReportRow) : Prop :=
  reportLEb a b = true

instance : DecidableRel reportLE :=
  fun a b => instDecidableEqBool (reportLEb a b) true

/-- The `(order_id, member_phone, customer_name)` lookup preserved from the
CSV-sourced rows before deduplication. -/
structure CsvMemberEntry where
  order_id : String
  member_phone : Option String
  customer_name : Option String
  deriving DecidableEq

/-- Build the CSV member lookup: project the CSV rows of the sorted frame,
blank out `''`/`'nan'`, drop rows with neither phone nor name, and keep the
first entry per `order_id`. -/
def csvMembers (sorted : List ReportRow) : List CsvMemberEntry :=
  dedupBy (fun e => e.order_id)
    (((sorted.filter (fun r => r.data_source == some "csv")).map
        (fun r => { order_id := r.order_id
                    member_phone := normCell r.member_phone
                    customer_name := normCell r.customer_name : CsvMemberEntry })).filter
      (fun e => !(e.member_phone == none && e.customer_name == none)))

/-- Back-fill one surviving row from the CSV member lookup
(`replace({'':NA,'nan':NA}).fillna(..._csv)`). -/
def backfillRow (entries : List CsvMemberEntry) (r : ReportRow) : ReportRow :=
  let e := entries.find? (fun e => e.order_id == r.order_id)
  { r with
    member_phone := (normCell r.member_phone).orElse (fun _ => e.bind (fun e => e.member_phone)),
    customer_name := (normCell r.customer_name).orElse (fun _ => e.bind (fun e => e.customer_name)) }

/-- Left-join of the invoice lookup by `invoice_id`, coalescing `carrier_id`
(`fillna`: only a missing carrier cell is filled). -/
def invoiceJoinRow (lookup : List InvoiceRow) (r : ReportRow) : ReportRow :=
  let inv := r.invoice_id.bind (fun iid => lookup.find? (fun v => v.invoice_id == iid))
  { r with carrier_id := r.carrier_id.orElse (fun _ => inv.bind (fun v => v.carrier_id)) }

/-- Report consolidation of `_merge_data`: concatenate the chunks, default the
source to `csv`, sort (JSON first within an `order_id`), extract the CSV
member lookup, deduplicate by `order_id` keeping the first row, back-fill the
member fields, then left-join the deduplicated invoice lookup. -/
def mergeReport (reportChunks : List (List ReportRow))
    (invoiceChunks : List (List InvoiceRow)) : List ReportRow :=
  let invoiceLookup := dedupByLast (fun v => v.invoice_id) (invoiceChunks.flatten)
  if reportChunks.isEmpty then []
  else
    let pool := (reportChunks.flatten).map fillSource
    let sorted := pool.insertionSort reportLE
    let entries := csvMembers sorted
    let deduped := dedupBy (fun r => r.order_id) sorted
    let backfilled := if entries.isEmpty then deduped else deduped.map (backfillRow entries)
    if invoiceLookup.isEmpty then backfilled else backfilled.map (invoiceJoinRow invoiceLookup)

/-- Details consolidation of `_merge_data`: concatenate, default the source,
keep only rows whose `order_id` appears in the final report frame, then drop
every CSV row of an order that also has JSON rows. -/
def mergeDetails (detailsChunks : List (List DetailsRow))
    (finalReport : List ReportRow) : List DetailsRow :=
  if detailsChunks.isEmpty then []
  else
    let all := (detailsChunks.flatten).map fillSourceD
    if finalReport.isEmpty then all
    else
      let validOrders := finalReport.map (fun r => r.order_id)
      let filtered := all.filter (fun d => validOrders.contains d.order_id)
      let jsonIds := (filtered.filter (fun d => d.data_source == some "json")).map
        (fun d => d.order_id)
      filtered.filter (fun d => d.data_source == some "json" || !(jsonIds.contains d.order_id))

/-- Maximum of the non-missing encoded dates of a column (`pandas` `max`
ignores `NaT`; an all-missing column gives `NaT`). -/
def maxDate (l : List (Option Nat)) : Option Nat :=
  (l.filterMap id).max?

/-- Update a key of the `latest_dates` dict (keys are fixed at
initialisation; assignment only replaces the value). -/
def setKey (m : List (String × Option Nat)) (k : String) (v : Option Nat) :
    List (String × Option Nat) :=
  m.map (fun kv => if kv.1 == k then (kv.1, v) else kv)

/-- The `latest_dates` mapping built by `_merge_data`: initialised with all
four keys (value `none` renders as `'無資料'`), then updated per source when a
maximal valid date exists.  `strftime('%Y-%m-%d')` is elided; the stored
value is the encoded date. -/
def latestDatesOf (reportChunks : List (List ReportRow))
    (detailsChunks : List (List DetailsRow))
    (invoiceChunks : List (List InvoiceRow)) : List (String × Option Nat) :=
  let m0 : List (String × Option Nat) :=
    [("json", none), ("csv_report", none), ("csv_details", none), ("invoice", none)]
  let m1 :=
    if invoiceChunks.isEmpty then m0
    else
      match maxDate ((invoiceChunks.flatten).map (fun v => v.date)) with
      | some d => setKey m0 "invoice" (some d)
      | none => m0
  let m2 :=
    if reportChunks.isEmpty then m1
    else
      let pool := (reportChunks.flatten).map fillSource
      let m2a :=
        match maxDate ((pool.filter (fun r => r.data_source == some "json")).map
            (fun r => r.date)) with
        | some d => setKey m1 "json" (some d)
        | none => m1
      match maxDate ((pool.filter (fun r => r.data_source == some "csv")).map
          (fun r => r.date)) with
      | some d => setKey m2a "csv_report" (some d)
      | none => m2a
  if detailsChunks.isEmpty then m2
  else
    let dall := (detailsChunks.flatten).map fillSourceD
    match maxDate ((dall.filter (fun d => d.data_source == some "csv")).map
        (fun d => d.date)) with
    | some d => setKey m2 "csv_details" (some d)
    | none => m2

/-- The full result of `_merge_data`. -/
structure MergeResult where
  report : List ReportRow
  details : List DetailsRow
  latestDates : List (String × Option Nat)

def mergeData (reportChunks : List (List ReportRow))
    (detailsChunks : List (List DetailsRow))
    (invoiceChunks : List (List InvoiceRow)) : MergeResult :=
  let rep := mergeReport reportChunks invoiceChunks
  { report := rep
    details := mergeDetails detailsChunks rep
    latestDates := latestDatesOf reportChunks detailsChunks invoiceChunks }

/-! ### Enrichment (`enrich_data`) -/

/-- `temp_phones`: `astype(str).str.strip().str.replace(' ', '')`. -/
def tempPhone (r : ReportRow) : String :=
  removeSpaces (pyTrim (pyStr r.member_phone))

/-- Valid phone for the shared-phone statistics: length ≥ 6, no `'*'`, not the
stringified missing cell. -/
def validMask (r : ReportRow) : Bool :=
  decide ((tempPhone r).length ≥ 6) && !((tempPhone r).data.contains '*') &&
    !(tempPhone r == "nan")

/-- Distinct customer names associated with phone `p` among the valid rows
(`groupby(temp_phones[valid_mask])['customer_name'].nunique()`; `nunique`
ignores missing names). -/
def namesForPhone (rows : List ReportRow) (p : String) : List String :=
  ((rows.filter (fun r => validMask r && tempPhone r == p)).filterMap
    (fun r => r.customer_name)).dedup

/-- The hardcoded delivery-platform phones. -/
def knownPlatforms : List String :=
  ["55941277", "77519126"]

/-- Membership in `platform_phones = shared_phones_auto ∪ known_platforms`:
phones with at least 10 distinct names, plus the hardcoded set. -/
def isPlatformPhone (rows : List ReportRow) (p : String) : Bool :=
  decide (10 ≤ (namesForPhone rows p).length) || knownPlatforms.contains p

/-- `valid_phone_mask` of the carrier-backfill step. -/
def validPhoneMask (rows : List ReportRow) (r : ReportRow) : Bool :=
  decide ((tempPhone r).length > 6) && !((tempPhone r).data.contains '*') &&
    !(tempPhone r == "nan") && !(isPlatformPhone rows (tempPhone r)) &&
    !(knownPlatforms.any (fun k => strContains (tempPhone r) k))

/-- `valid_carrier_mask`: the stringified carrier is longer than 4 characters
and not the missing marker (no stripping here, as in the code). -/
def validCarrierMask (r : ReportRow) : Bool :=
  decide ((pyStr r.carrier_id).length > 4) && !(pyStr r.carrier_id == "nan")

/-- `carrier_df`: rows with both a valid phone and a valid carrier. -/
def carrierDf (rows : List ReportRow) : List ReportRow :=
  rows.filter (fun r => validPhoneMask rows r && validCarrierMask r)

/-- `groupby(['carrier_id','member_phone','customer_name'])` key of one row;
`groupby` drops rows with a missing key component. -/
def carrierKey (r : ReportRow) : Option (String × String × String) :=
  match r.carrier_id, r.member_phone, r.customer_name with
  | some c, some p, some n => some (c, p, n)
  | _, _, _ => none

/-- Ascending lexicographic order on group keys (`groupby(sort=True)`). -/
def keyLEb (a b : String × String × String) : Bool :=
  if a.1 == b.1 then
    if a.2.1 == b.2.1 then strLeB a.2.2 b.2.2 else strLtB a.2.1 b.2.1
  else strLtB a.1 b.1

def keyLE (a b : String × String × String) : Prop :=
  keyLEb a b = true

instance : DecidableRel keyLE :=
  fun a b => instDecidableEqBool (keyLEb a b) true

/-- Per-group RFM statistics: Frequency is the number of distinct transaction
dates, Recency the latest timestamp, Monetary the summed total. -/
structure CarrierStat where
  carrier_id : String
  member_phone : String
  customer_name : String
  freq : Nat
  recency : Option Nat
  monetary : Int
  deriving DecidableEq

def statOf (grouped : List ReportRow) (key : String × String × String) : CarrierStat :=
  let g := grouped.filter (fun r => carrierKey r == some key)
  { carrier_id := key.1
    member_phone := key.2.1
    customer_name := key.2.2
    freq := ((g.filterMap (fun r => r.date)).map (fun d => d / 10000)).dedup.length
    recency := maxDate (g.map (fun r => r.date))
    monetary := (g.map (fun r => r.total_amount)).sum }

/-- Descending comparison of `Recency` values (missing timestamps sort
last). -/
def recencyGeB : Option Nat → Option Nat → Bool
  | some x, some y => decide (y ≤ x)
  | some _, none => true
  | none, some _ => false
  | none, none => true

/-- `sort_values(by=['carrier_id','Frequency','Recency','Monetary'],
ascending=[True, False, False, False])`. -/
def statLEb (a b : CarrierStat) : Bool :=
  if a.carrier_id == b.carrier_id then
    if a.freq == b.freq then
      if a.recency == b.recency then
        if a.monetary == b.monetary then true
        else decide (b.monetary < a.monetary)
      else recencyGeB a.recency b.recency
    else decide (b.freq < a.freq)
  else strLtB a.carrier_id b.carrier_id

def statLE (a b : CarrierStat) : Prop :=
  statLEb a b = true

instance : DecidableRel statLE :=
  fun a b => instDecidableEqBool (statLEb a b) true

/-- The `#1`-ranked group per carrier (`drop_duplicates(['carrier_id'],
keep='first')` after the descending sort). -/
def bestCarriers (rows : List ReportRow) : List CarrierStat :=
  let grouped := carrierDf rows
  let keys := ((grouped.filterMap carrierKey).dedup).insertionSort keyLE
  let stats := (keys.map (statOf grouped)).insertionSort statLE
  dedupBy (fun s => s.carrier_id) stats

/-- `carrier_to_phone` / `carrier_to_name` dictionaries. -/
def carrierToPhone (rows : List ReportRow) (c : String) : Option String :=
  ((bestCarriers rows).find? (fun s => s.carrier_id == c)).map (fun s => s.member_phone)

def carrierToName (rows : List ReportRow) (c : String) : Option String :=
  ((bestCarriers rows).find? (fun s => s.carrier_id == c)).map (fun s => s.customer_name)

/-- `needs_backfill`: a valid carrier but no valid phone, and not a platform
phone. -/
def needsBackfill (rows : List ReportRow) (r : ReportRow) : Bool :=
  !(validPhoneMask rows r) && validCarrierMask r &&
    !(isPlatformPhone rows (tempPhone r)) &&
    !(knownPlatforms.any (fun k => strContains (tempPhone r) k))

/-- The carrier-to-phone backfill of `enrich_data`: rows needing backfill
whose carrier is in the mapping get the canonical phone and name.  All masks
and statistics are computed on the incoming frame, as in the code. -/
def applyCarrierBackfill (rows : List ReportRow) : List ReportRow :=
  if (carrierDf rows).isEmpty then rows
  else
    rows.map (fun r =>
      if needsBackfill rows r then
        let mp := r.carrier_id.bind (fun c => carrierToPhone rows c)
        let mn := r.carrier_id.bind (fun c => carrierToName rows c)
        let r1 := match mp with
          | some p => { r with member_phone := some p }
          | none => r
        match mn with
        | some n => { r1 with customer_name := some n }
        | none => r1
      else r)

/-- `get_member_id` (the platform-phone set is the one computed on the
pre-backfill frame `orig`). -/
def getMemberId (orig : List ReportRow) (r : ReportRow) : Option String :=
  let p0 := removeSpaces (pyTrim (pyStr r.member_phone))
  let c := pyTrim (pyStr r.carrier_id)
  let n := pyTrim (pyStr r.customer_name)
  let p1 := if p0.data.contains '*' then "" else p0
  let isPlat := isPlatformPhone orig p1 || knownPlatforms.any (fun k => strContains p1 k)
  if isPlat && decide (0 < n.length) && !(n == "nan") then some ("UE_" ++ n)
  else
    let p2 := if isPlat then "" else p1
    if decide (6 < p2.length) && !(p2 == "nan") then some ("CRM_" ++ p2)
    else if decide (4 < c.length) && !(c == "nan") then some ("Carrier_" ++ c)
    else none

/-- `get_order_category`. -/
def orderCategoryOf (r : ReportRow) : String :=
  let ot := asciiLower (pyStr r.order_type)
  let pm := asciiLower (pyStr r.payment_method)
  if strContains pm "foodomo" || strContains ot "foodomo" then "外送 (Delivery)"
  else if strContains ot "uber" || strContains ot "panda" || strContains ot "delivery" ||
      strContains ot "外送" then "外送 (Delivery)"
  else if strContains ot "take" || strContains ot "tago" || strContains ot "外帶" ||
      strContains ot "自取" then "外帶 (Takeout)"
  else "內用 (Dine-in)"

/-- An enriched report row: the (possibly back-filled) base row plus the
derived `Member_ID` and `Order_Category` columns. -/
structure EnrichedReport where
  base : ReportRow
  memberId : Option String
  orderCategory : String
  deriving DecidableEq

/-- Report-side enrichment: carrier backfill, then the derived columns
(the platform statistics stay those of the incoming frame). -/
def enrichReportRows (report : List ReportRow) : List EnrichedReport :=
  (applyCarrierBackfill report).map (fun r =>
    { base := r, memberId := getMemberId report r, orderCategory := orderCategoryOf r })

/-! ### Details enrichment and the people-count fix -/

/-- `Is_Modifier`: CSV-sourced row with a non-empty `options` cell (JSON rows
are never modifiers). -/
def isModifierB (r : DetailsRow) : Bool :=
  !(r.data_source == some "json") && r.options.isSome &&
    !(pyTrim (pyStr r.options) == "")

/-- `sku.fillna('').astype(str).str.upper().str.strip()`. -/
def skuNorm (r : DetailsRow) : String :=
  pyTrim (asciiUpper (r.sku.getD ""))

/-- `get_sku_category`. -/
def skuCategory (sku : String) : String :=
  if strStartsWith sku "A" then "A 湯麵"
  else if strStartsWith sku "B" then "B 拌麵飯"
  else if strStartsWith sku "C" then "C 小菜"
  else if strStartsWith sku "D1" then "D1 單點"
  else if strStartsWith sku "D2" then "D2 青菜"
  else if strStartsWith sku "D" then "D 單點/青菜"
  else if strStartsWith sku "E" then "E 湯"
  else if strStartsWith sku "F" then "F 飲料"
  else if strStartsWith sku "S" then "S 套餐"
  else "其他"

/-- Combo detection: `item_type` / `order_type` (filled with `''`) contains
`'Combo Item'` case-insensitively. -/
def isComboRow (r : DetailsRow) : Bool :=
  strContains (asciiLower (r.item_type.getD "")) "combo item" ||
    strContains (asciiLower (r.order_type.getD "")) "combo item"

/-- `mask_no_mod`: JSON row, or missing/blank `options`. -/
def maskNoMod (r : DetailsRow) : Bool :=
  r.data_source == some "json" || r.options.isNone || pyTrim (pyStr r.options) == ""

/-- `Is_Main_Dish`: SKU class `A`/`B`, or (no SKU and a noodle/rice name and
not a combo row), and not a modifier row. -/
def isMainDishB (r : DetailsRow) : Bool :=
  let name := r.item_name.getD ""
  let condSku := strStartsWith (skuNorm r) "A" || strStartsWith (skuNorm r) "B"
  let condName := strContains name "麵" || strContains name "飯"
  let condNoSku := skuNorm r == "" && condName && !(isComboRow r)
  (condSku || condNoSku) && maskNoMod r

/-- An enriched details row: the base row plus the derived `Is_Modifier`,
`category` and `Is_Main_Dish` columns. -/
structure EnrichedDetails where
  base : DetailsRow
  isModifier : Bool
  category : String
  isMainDish : Bool
  deriving DecidableEq

def enrichDetailsRows (details : List DetailsRow) : List EnrichedDetails :=
  details.map (fun r =>
    { base := r
      isModifier := isModifierB r
      category := skuCategory (skuNorm r)
      isMainDish := isMainDishB r })

/-- `calculated_people`: summed quantity of the main-dish rows of one order
(`0` when the order has none, via `fillna(0)`). -/
def mainDishCount (eds : List EnrichedDetails) (oid : String) : Int :=
  ((eds.filter (fun e => e.isMainDish && e.base.order_id == oid)).map
    (fun e => e.base.qty)).sum

/-- `fix_people_count` applied to one enriched report row. -/
def fixPeopleRow (eds : List EnrichedDetails) (er : EnrichedReport) : EnrichedReport :=
  let orig := er.base.people_count.getD 0
  let calcP := mainDishCount eds er.base.order_id
  let v :=
    if er.base.data_source == some "json" ||
        (match er.base.order_type with
         | some t => ["外送", "外帶", "自取"].contains t
         | none => false) then
      if 0 < calcP then max calcP 1 else max orig 1
    else max orig calcP
  { er with base := { er.base with people_count := some v } }

/-- `enrich_data`: report enrichment, details enrichment, and — only when the
details frame is non-empty — the people-count cross-update. -/
def enrichData (report : List ReportRow) (details : List DetailsRow) :
    List EnrichedReport × List EnrichedDetails :=
  let rep1 := enrichReportRows report
  let det1 := enrichDetailsRows details
  let rep2 := if details.isEmpty then rep1 else rep1.map (fixPeopleRow det1)
  (rep2, det1)

/-! ### Content-based file classification (`_is_report`, `_is_details`,
`_is_invoice` and the fallback order of `_process_file`) -/

inductive FileKind
  | report
  | details
  | invoice
  deriving DecidableEq

/-- `_classify_by_filename`. -/
def classifyByFilename (filename : String) : Option FileKind :=
  let fn := asciiLower filename
  if strContains fn "transaction report" then some FileKind.details
  else if strContains fn "history_report" then some FileKind.report
  else if strContains fn "undefined" then none
  else if strContains fn "發票" || strContains fn "invoice" then some FileKind.invoice
  else none

/-- The raw aliases of `item_name` in `config.COLUMN_MAPPING`. -/
def itemNameAliases : List String :=
  ["Item Name", "商品名稱", "Product Name"]

/-- `_is_details`: the filename rule, the canonical column, or a raw alias. -/
def isDetailsTable (cols : List String) (filename : String) : Bool :=
  (strContains (asciiLower filename) "transaction report" &&
    !(strContains (asciiLower filename) "undefined")) ||
  cols.contains "item_name" || itemNameAliases.any (fun a => cols.contains a)

/-- `_is_report`: order id and total amount. -/
def isReportTable (cols : List String) : Bool :=
  cols.contains "order_id" && cols.contains "total_amount"

/-- `_is_invoice`: invoice id and no order id. -/
def isInvoiceTable (cols : List String) : Bool :=
  cols.contains "invoice_id" && !(cols.contains "order_id")

/-- The content-based fallback of `_process_file`: details, then report, then
invoice; otherwise the file is skipped (`none`). -/
def classifyByContent (cols : List String) (filename : String) : Option FileKind :=
  if isDetailsTable cols filename then some FileKind.details
  else if isReportTable cols then some FileKind.report
  else if isInvoiceTable cols then some FileKind.invoice
  else none

/-! ### Cache layer (`scan_and_load`)

A frame returned by `scan_and_load` is viewed as a grid of typed cells, one
list per row, in the fixed canonical column order of the row structures.  The
parquet cache stores `astype(str)` copies of the frames; reading the cache
back yields frames whose every cell is a string.  Parquet itself is modelled
as lossless storage of string frames.  The cache-validity mtime comparison is
abstracted into whether a readable cache is present. -/

inductive Cell
  | str (v : String)
  | num (v : Int)
  | missing
  deriving DecidableEq

/-- Python `str()` of one cell (`astype(str)`; a missing numeric cell renders
as `"nan"`; the exact rendering of numbers and timestamps is irrelevant to
the theorems, which only compare cells structurally). -/
def cellStr : Cell → String
  | Cell.str v => v
  | Cell.num v => toString v
  | Cell.missing => "nan"

/-- `astype(str)` on one cell: every cell becomes a string cell. -/
def castStr (c : Cell) : Cell :=
  Cell.str (cellStr c)

def optStrCell : Option String → Cell
  | none => Cell.missing
  | some v => Cell.str v

def optNatCell : Option Nat → Cell
  | none => Cell.missing
  | some v => Cell.num (Int.ofNat v)

def optIntCell : Option Int → Cell
  | none => Cell.missing
  | some v => Cell.num v

def reportRowCells (r : ReportRow) : List Cell :=
  [Cell.str r.order_id, optNatCell r.date, Cell.num r.total_amount,
   optStrCell r.status, optStrCell r.order_type, optIntCell r.people_count,
   optStrCell r.payment_method, optStrCell r.member_phone,
   optStrCell r.customer_name, optStrCell r.carrier_id,
   optStrCell r.invoice_id, optStrCell r.data_source]

def detailsRowCells (r : DetailsRow) : List Cell :=
  [Cell.str r.order_id, optNatCell r.date, optStrCell r.status,
   optStrCell r.item_name, optStrCell r.sku, Cell.num r.qty,
   Cell.num r.unit_price, Cell.num r.item_total, optStrCell r.options,
   optStrCell r.item_type, optStrCell r.order_type, optStrCell r.data_source]

/-- `astype(str)` of a whole frame, as stored in the parquet cache. -/
def frameToStrings (f : List (List Cell)) : List (List String) :=
  f.map (fun row => row.map cellStr)

/-- Cast every cell of a frame to a string cell. -/
def castFrame (f : List (List Cell)) : List (List Cell) :=
  f.map (fun row => row.map castStr)

/-- A readable parquet cache: the two string frames. -/
structure CacheState where
  reportCache : List (List String)
  detailsCache : List (List String)
  deriving DecidableEq

/-- The observable outcome of one `scan_and_load` call: the two returned
frames, the `latest_dates` attribute (absent on the cache-hit path, which
returns before `_merge_data` runs), and the cache left on disk. -/
structure LoadOutcome where
  reportFrame : List (List Cell)
  detailsFrame : List (List Cell)
  latestDates : Option (List (String × Option Nat))
  cacheAfter : Option CacheState

/-- `scan_and_load`: on a valid cache, return the parquet frames directly
(every cell a string); otherwise run the raw parse and merge, return the
typed frames, and persist their `astype(str)` copies. -/
def scanAndLoad (cache : Option CacheState)
    (reportChunks : List (List ReportRow))
    (detailsChunks : List (List DetailsRow))
    (invoiceChunks : List (List InvoiceRow)) : LoadOutcome :=
  match cache with
  | some cf =>
      { reportFrame := cf.reportCache.map (fun row => row.map Cell.str)
        detailsFrame := cf.detailsCache.map (fun row => row.map Cell.str)
        latestDates := none
        cacheAfter := some cf }
  | none =>
      let m := mergeData reportChunks detailsChunks invoiceChunks
      let rF := m.report.map reportRowCells
      let dF := m.details.map detailsRowCells
      { reportFrame := rF
        detailsFrame := dF
        latestDates := some m.latestDates
        cacheAfter := some { reportCache := frameToStrings rF
                             detailsCache := frameToStrings dF } }

/-! ### Sample rows for concrete instantiations -/

def sampleReportRow : ReportRow :=
  { order_id := "R1", date := some 202501011230, total_amount := 200,
    status := some "completed", order_type := some "內用", people_count := some 2,
    payment_method := none, member_phone := none, customer_name := none,
    carrier_id := none, invoice_id := none, data_source := none }

def sampleDetailsRow : DetailsRow :=
  { order_id := "R1", date := some 202501011230, status := none,
    item_name := some "牛肉麵", sku := some "A01", qty := 1, unit_price := 120,
    item_total := 120, options := none, item_type := none, order_type := none,
    data_source := none }

def orphanDetailsRow : DetailsRow :=
  { order_id := "X9", date := none, status := none, item_name := some "牛肉麵",
    sku := some "A01", qty := 1, unit_price := 120, item_total := 120,
    options := none, item_type := none, order_type := none, data_source := none }

/-- The concatenated report pool with the `data_source` default applied — the
frame that enters sorting and deduplication in `_merge_data`. -/
def reportPool (chunks : List (List ReportRow)) : List ReportRow :=
  (chunks.flatten).map fillSource

/-- Sum of `qty` over the main-dish rows of one order in an enriched details
frame. -/
def mainDishQtySum (eds : List EnrichedDetails) (oid : String) : Int :=
  ((eds.filter (fun e => e.isMainDish && e.base.order_id == oid)).map
    (fun e => e.base.qty)).sum

/-- Sum of `qty` over the non-modifier rows of one order in an enriched
details frame. -/
def nonModifierQtySum (eds : List EnrichedDetails) (oid : String) : Int :=
  ((eds.filter (fun e => !e.isModifier && e.base.order_id == oid)).map
    (fun e => e.base.qty)).sum

/-- The `Member_ID` of the order with the given id in an enriched report
frame (`none` when the order is absent). -/
def memberIdOf (l : List EnrichedReport) (oid : String) : Option (Option String) :=
  (l.find? (fun e => e.base.order_id == oid)).map (fun e => e.memberId)

/-- One row of the carrier-backfill scenario of
`archive_debug_scripts/test_carrier_mapping.py`. -/
def carrierScenarioRow (oid : String) (dt : Nat) (amt : Int) (ph : Option String)
    (nm : Option String) (ca : String) : ReportRow :=
  { order_id := oid, date := some dt, total_amount := amt, status := none,
    order_type := none, people_count := none, payment_method := none,
    member_phone := ph, customer_name := nm, carrier_id := some ca,
    invoice_id := none, data_source := none }

/-- The six-order input of the repository's carrier-mapping test. -/
def carrierScenario : List ReportRow :=
  [carrierScenarioRow "001" 202510011200 200 (some "0911111111") (some "老公") "/ABCD123",
   carrierScenarioRow "002" 202510051200 150 (some "0922222222") (some "太太") "/ABCD123",
   carrierScenarioRow "003" 202510151200 150 (some "0922222222") (some "太太") "/ABCD123",
   carrierScenarioRow "004" 202509011200 500 none none "/ABCD123",
   carrierScenarioRow "005" 202511011200 100 (some "") (some "") "/ABCD123",
   carrierScenarioRow "006" 202512011200 300 none none "/ALONE99"]

/-- A completed JSON order with no line items (for status provenance). -/
def completedJsonOrder : JsonOrder :=
  { status := "COMPLETED", short_code := "A5", oid := "", created_at := some 202503041830,
    total_price := 500, otype := "dine_in", party_size := 2, payments := [],
    phone_number := "", first_name := "", invoice_list := [], line_items := [] }

/-- A raw CSV report row with a mixed-case status, for the cleaner. -/
def rawStatusRow : ReportRow :=
  { order_id := "R20", date := some 202502031300, total_amount := 320,
    status := some " Paid ", order_type := none, people_count := none,
    payment_method := none, member_phone := none, customer_name := none,
    carrier_id := none, invoice_id := none, data_source := none }

/-- JSON-sourced and CSV-sourced rows sharing order id `77`, as produced by
the two ingestion paths: the JSON row lacks member data, the CSV row carries
it. -/
def jsonPrecRow : ReportRow :=
  { order_id := "77", date := some 202504011900, total_amount := 500,
    status := some "COMPLETED", order_type := some "內用", people_count := some 0,
    payment_method := some "", member_phone := some "", customer_name := some "",
    carrier_id := none, invoice_id := some "", data_source := some "json" }

def csvPrecRow : ReportRow :=
  { order_id := "77", date := some 202504011900, total_amount := 480,
    status := some "paid", order_type := none, people_count := some 2,
    payment_method := none, member_phone := some "0912345678",
    customer_name := some "王小明", carrier_id := none, invoice_id := none,
    data_source := none }

/-- A details row that is neither a main dish nor a modifier, with a negative
(refund-style) quantity. -/
def negQtyDetailsRow : DetailsRow :=
  { order_id := "R1", date := none, status := none, item_name := some "折讓",
    sku := some "Z9", qty := -2, unit_price := 0, item_total := -2,
    options := none, item_type := none, order_type := none, data_source := none }

/-- A JSON-sourced report row for the people-count fix. -/
def jsonPeopleRow : ReportRow :=
  { order_id := "P1", date := some 202505051200, total_amount := 150,
    status := some "COMPLETED", order_type := some "外帶", people_count := some 0,
    payment_method := some "", member_phone := some "", customer_name := some "",
    carrier_id := none, invoice_id := some "", data_source := some "json" }

/-- A modifier-only details chunk for order `P1` (no main dish at all). -/
def modifierOnlyDetailsRow : DetailsRow :=
  { order_id := "P1", date := some 202505051200, status := none,
    item_name := some "加辣", sku := some "", qty := 1, unit_price := 0,
    item_total := 0, options := some "加辣", item_type := none,
    order_type := none, data_source := none }

/-! ## Theorems -/

/-! ### Lemmas about the string primitives -/

theorem lowerChar_not_upper (c : Char) : isUpperAscii (lowerChar c) = false := by
  unfold lowerChar
  cases hfind : casePairs.find? (fun p => p.1 == c) with
  | some p =>
      have hmem : p ∈ casePairs := List.mem_of_find?_eq_some hfind
      have hall : ∀ q ∈ casePairs, isUpperAscii q.2 = false := by decide
      exact hall p hmem
  | none =>
      have hnone := List.find?_eq_none.mp hfind
      unfold isUpperAscii
      rw [List.any_eq_false]
      intro p hp
      exact hnone p hp

theorem noUpper_asciiLower (s : String) : noUpper (asciiLower s) = true := by
  unfold noUpper asciiLower
  simp only [List.any_map, Bool.not_eq_true']
  rw [List.any_eq_false]
  intro c _
  simpa [Function.comp] using lowerChar_not_upper c

theorem charEq_of_toNat (a b : Char) (h : a.toNat = b.toNat) : a = b :=
  Char.ext (UInt32.ext h)

theorem ltCL_irrefl (l : List Char) : ltCL l l = false := by
  induction l with
  | nil => rfl
  | cons a t ih => simp [ltCL, ih]

theorem ltCL_trans {a b c : List Char} (h1 : ltCL a b = true) (h2 : ltCL b c = true) :
    ltCL a c = true := by
  induction a generalizing b c with
  | nil =>
    cases b with
    | nil => simp [ltCL] at h1
    | cons y bs =>
      cases c with
      | nil => simp [ltCL] at h2
      | cons z cs => simp [ltCL]
  | cons x as ih =>
    cases b with
    | nil => simp [ltCL] at h1
    | cons y bs =>
      cases c with
      | nil => simp [ltCL] at h2
      | cons z cs =>
        simp only [ltCL] at h1 h2 ⊢
        rcases Nat.lt_trichotomy x.toNat y.toNat with hxy | hxy | hxy
        · rcases Nat.lt_trichotomy y.toNat z.toNat with hyz | hyz | hyz
          · rw [if_pos (Nat.lt_trans hxy hyz)]
          · have hyz2 : y = z := charEq_of_toNat y z hyz
            subst hyz2
            rw [if_pos hxy]
          · rw [if_neg (by omega), if_pos hyz] at h2
            exact absurd h2 (by simp)
        · have hxy2 : x = y := charEq_of_toNat x y hxy
          subst hxy2
          rw [if_neg (by omega), if_neg (by omega)] at h1
          rcases Nat.lt_trichotomy x.toNat z.toNat with hxz | hxz | hxz
          · rw [if_pos hxz]
          · have hxz2 : x = z := charEq_of_toNat x z hxz
            subst hxz2
            rw [if_neg (by omega), if_neg (by omega)] at h2 ⊢
            exact ih h1 h2
          · rw [if_neg (by omega), if_pos hxz] at h2
            exact absurd h2 (by simp)
        · rw [if_neg (by omega), if_pos hxy] at h1
          exact absurd h1 (by simp)

theorem ltCL_connex {a b : List Char} (h1 : ltCL a b = false) (h2 : ltCL b a = false) :
    a = b := by
  induction a generalizing b with
  | nil =>
    cases b with
    | nil => rfl
    | cons y bs => simp [ltCL] at h1
  | cons x as ih =>
    cases b with
    | nil => simp [ltCL] at h2
    | cons y bs =>
      simp only [ltCL] at h1 h2
      rcases Nat.lt_trichotomy x.toNat y.toNat with hxy | hxy | hxy
      · rw [if_pos hxy] at h1
        exact absurd h1 (by simp)
      · have hxy2 : x = y := charEq_of_toNat x y hxy
        subst hxy2
        rw [if_neg (by omega), if_neg (by omega)] at h1 h2
        rw [ih h1 h2]
      · rw [if_pos hxy] at h2
        exact absurd h2 (by simp)

theorem strLtB_irrefl (s : String) : strLtB s s = false :=
  ltCL_irrefl s.data

theorem string_eq_of_data (s t : String) (h : s.data = t.data) : s = t := by
  cases s; cases t
  exact congrArg String.mk h

theorem strLtB_connex {a b : String} (h1 : strLtB a b = false) (h2 : strLtB b a = false) :
    a = b :=
  string_eq_of_data a b (ltCL_connex h1 h2)

theorem strLtB_trans {a b c : String} (h1 : strLtB a b = true) (h2 : strLtB b c = true) :
    strLtB a c = true :=
  ltCL_trans h1 h2

theorem strLeB_total (a b : String) : strLeB a b = true ∨ strLeB b a = true := by
  unfold strLeB
  by_cases h : strLtB b a = true
  · right
    by_cases h2 : strLtB a b = true
    · exact absurd (strLtB_trans h h2) (by simp [strLtB_irrefl])
    · simp [h2]
  · left
    simp [h]

theorem strLeB_trans {a b c : String} (h1 : strLeB a b = true) (h2 : strLeB b c = true) :
    strLeB a c = true := by
  unfold strLeB at h1 h2 ⊢
  simp only [Bool.not_eq_true'] at h1 h2 ⊢
  by_cases hca : strLtB c a = true
  · exfalso
    by_cases hbc : strLtB b c = true
    · exact absurd (strLtB_trans hbc hca) (by simp [h1])
    · have hbec : b = c := strLtB_connex (by simpa using hbc) h2
      subst hbec
      simp [hca] at h1
  · exact eq_false_of_ne_true hca

theorem dedupByAux_subset {α : Type} (key : α → String) :
    ∀ (l : List α) (seen : List String) (x : α), x ∈ dedupByAux key l seen → x ∈ l := by
  intro l
  induction l with
  | nil => intro seen x h; simp [dedupByAux] at h
  | cons r t ih =>
    intro seen x h
    simp only [dedupByAux] at h
    by_cases hmem : key r ∈ seen
    · rw [if_pos hmem] at h
      exact List.mem_cons_of_mem r (ih seen x h)
    · rw [if_neg hmem] at h
      rcases List.mem_cons.mp h with h | h
      · simp [h]
      · exact List.mem_cons_of_mem r (ih _ x h)

theorem find?_key_cons_pos {α : Type} (key : α → String) (k : String) (r : α) (t : List α)
    (h : (key r == k) = true) :
    List.find? (fun x => key x == k) (r :: t) = some r :=
  List.find?_cons_of_pos t h

theorem find?_key_cons_neg {α : Type} (key : α → String) (k : String) (r : α) (t : List α)
    (h : ¬ (key r == k) = true) :
    List.find? (fun x => key x == k) (r :: t) = List.find? (fun x => key x == k) t :=
  List.find?_cons_of_neg t h

theorem filter_key_cons_pos {α : Type} (key : α → String) (k : String) (r : α) (t : List α)
    (h : (key r == k) = true) :
    List.filter (fun x => key x == k) (r :: t) = r :: List.filter (fun x => key x == k) t :=
  List.filter_cons_of_pos h

theorem filter_key_cons_neg {α : Type} (key : α → String) (k : String) (r : α) (t : List α)
    (h : ¬ (key r == k) = true) :
    List.filter (fun x => key x == k) (r :: t) = List.filter (fun x => key x == k) t :=
  List.filter_cons_of_neg (by simpa using h)

/-- The rows of the deduplicated list carrying key `k`: none if `k` was
already seen, otherwise exactly the first row of `l` with key `k`. -/
theorem dedupByAux_filter_key {α : Type} (key : α → String) :
    ∀ (l : List α) (seen : List String) (k : String),
      (dedupByAux key l seen).filter (fun x => key x == k) =
        (if k ∈ seen then [] else (l.find? (fun x => key x == k)).toList) := by
  intro l
  induction l with
  | nil =>
    intro seen k
    simp [dedupByAux]
  | cons r t ih =>
    intro seen k
    simp only [dedupByAux]
    by_cases hrk : (key r == k) = true
    · have heq : key r = k := beq_iff_eq.mp hrk
      subst heq
      by_cases hmem : key r ∈ seen
      · rw [if_pos hmem, ih seen (key r), if_pos hmem, if_pos hmem]
      · rw [if_neg hmem, filter_key_cons_pos key _ _ _ (by simp), ih _ (key r),
          if_pos (List.mem_cons_self _ _), if_neg hmem,
          find?_key_cons_pos key _ _ _ (by simp)]
        rfl
    · have hne : key r ≠ k := by
        intro hcon
        exact hrk (by simp [hcon])
      by_cases hmem : key r ∈ seen
      · rw [if_pos hmem, ih seen k, find?_key_cons_neg key _ _ _ hrk]
      · rw [if_neg hmem, filter_key_cons_neg key _ _ _ hrk, ih _ k,
          find?_key_cons_neg key _ _ _ hrk]
        by_cases hk : k ∈ seen
        · rw [if_pos (List.mem_cons_of_mem _ hk), if_pos hk]
        · have : ¬ k ∈ key r :: seen := by
            intro hcon
            rcases List.mem_cons.mp hcon with hcon | hcon
            · exact hne hcon.symm
            · exact hk hcon
          rw [if_neg this, if_neg hk]

theorem dedupBy_filter_key {α : Type} (key : α → String) (l : List α) (k : String) :
    (dedupBy key l).filter (fun x => key x == k) =
      (l.find? (fun x => key x == k)).toList := by
  have h := dedupByAux_filter_key key l [] k
  simpa [dedupBy] using h

theorem dedupByAux_keys_nodup {α : Type} (key : α → String) :
    ∀ (l : List α) (seen : List String),
      ((dedupByAux key l seen).map key).Nodup ∧
        (∀ x ∈ dedupByAux key l seen, key x ∉ seen) := by
  intro l
  induction l with
  | nil => intro seen; simp [dedupByAux]
  | cons r t ih =>
    intro seen
    simp only [dedupByAux]
    by_cases hmem : key r ∈ seen
    · rw [if_pos hmem]
      exact ih seen
    · rw [if_neg hmem]
      obtain ⟨ihn, ihs⟩ := ih (key r :: seen)
      constructor
      · simp only [List.map_cons, List.nodup_cons]
        refine ⟨?_, ihn⟩
        intro hcon
        rcases List.mem_map.mp hcon with ⟨x, hx, hkx⟩
        exact (ihs x hx) (by simp [hkx])
      · intro x hx
        rcases List.mem_cons.mp hx with hx | hx
        · rw [hx]; exact hmem
        · intro hcon
          exact (ihs x hx) (List.mem_cons_of_mem _ hcon)

theorem dedupBy_keys_nodup {α : Type} (key : α → String) (l : List α) :
    ((dedupBy key l).map key).Nodup :=
  (dedupByAux_keys_nodup key l []).1

theorem dedupBy_subset {α : Type} (key : α → String) (l : List α) (x : α)
    (h : x ∈ dedupBy key l) : x ∈ l :=
  dedupByAux_subset key l [] x h

/-- `find?` returns the unique element with a given key, when all elements
with that key are equal to it. -/
theorem find?_key_eq_of_unique {α : Type} (key : α → String) (l : List α) (k : String)
    (x : α) (hx : x ∈ l) (hkx : key x = k)
    (huniq : ∀ y ∈ l, key y = k → y = x) :
    l.find? (fun z => key z == k) = some x := by
  induction l with
  | nil => simp at hx
  | cons a t ih =>
    by_cases ha : (key a == k) = true
    · rw [find?_key_cons_pos key _ _ _ ha]
      rw [huniq a (List.mem_cons_self a t) (beq_iff_eq.mp ha)]
    · rw [find?_key_cons_neg key _ _ _ ha]
      have hxa : x ≠ a := by
        intro hcon
        exact ha (by simp [← hcon, hkx])
      have hxt : x ∈ t := by
        rcases List.mem_cons.mp hx with hcon | hcon
        · exact absurd hcon hxa
        · exact hcon
      exact ih hxt (fun y hy hk => huniq y (List.mem_cons_of_mem _ hy) hk)

/-- In a list sorted by `r`, `find?` by key returns the element that is
r-strictly-minimal among all elements carrying that key. -/
theorem find?_key_of_sorted_min {α : Type} {r : α → α → Prop} (key : α → String)
    (l : List α) (k : String) (x : α)
    (hs : l.Pairwise r) (hx : x ∈ l) (hkx : key x = k)
    (hmin : ∀ y ∈ l, key y = k → y = x ∨ (r x y ∧ ¬ r y x)) :
    l.find? (fun z => key z == k) = some x := by
  induction l with
  | nil => simp at hx
  | cons a t ih =>
    rcases List.pairwise_cons.mp hs with ⟨hhead, htail⟩
    by_cases ha : (key a == k) = true
    · rw [find?_key_cons_pos key _ _ _ ha]
      rcases hmin a (List.mem_cons_self a t) (beq_iff_eq.mp ha) with h | h
      · rw [h]
      · rcases List.mem_cons.mp hx with hxa | hxt
        · exfalso
          rw [← hxa] at h
          exact h.2 h.1
        · exact absurd (hhead x hxt) h.2
    · rw [find?_key_cons_neg key _ _ _ ha]
      have hxt : x ∈ t := by
        rcases List.mem_cons.mp hx with hcon | hcon
        · exact absurd ha (by rw [hcon] at hkx; simp [hkx])
        · exact hcon
      exact ih htail hxt (fun y hy hk => hmin y (List.mem_cons_of_mem _ hy) hk)

/-- `find?` is the head of `filter`. -/
theorem find?_eq_head_filter {α : Type} (p : α → Bool) (l : List α) :
    l.find? p = (l.filter p).head? := by
  induction l with
  | nil => rfl
  | cons a t ih =>
    by_cases ha : p a = true
    · rw [List.find?_cons_of_pos _ ha, List.filter_cons_of_pos ha]
      rfl
    · rw [List.find?_cons_of_neg _ ha, List.filter_cons_of_neg (by simpa using ha)]
      exact ih


/-! ### Supporting lemmas about the merge -/

/-- When report chunks exist, the final report frame is a pointwise map of
the key-deduplicated sorted pool, and the map leaves `order_id`,
`total_amount`, `status` and `data_source` untouched (only member fields and
`carrier_id` are rewritten by the back-fill and the invoice join). -/
theorem mergeReport_as_map (chunks : List (List ReportRow)) (invs : List (List InvoiceRow))
    (h : chunks.isEmpty = false) :
    ∃ f : ReportRow → ReportRow,
      mergeReport chunks invs =
        (dedupBy (fun r => r.order_id)
          (((chunks.flatten).map fillSource).insertionSort reportLE)).map f ∧
      ∀ r, (f r).order_id = r.order_id ∧ (f r).total_amount = r.total_amount ∧
        (f r).status = r.status ∧ (f r).data_source = r.data_source := by
  simp only [mergeReport, h, Bool.false_eq_true, if_false]
  set sorted := ((chunks.flatten).map fillSource).insertionSort reportLE with hsorted
  set entries := csvMembers sorted with hentries
  set lk := dedupByLast (fun v => v.invoice_id) invs.flatten with hlk
  by_cases hcm : entries.isEmpty
  · rw [if_pos hcm]
    by_cases hinv : lk.isEmpty
    · rw [if_pos hinv]
      exact ⟨id, by simp, fun r => by simp⟩
    · rw [if_neg hinv]
      refine ⟨invoiceJoinRow lk, rfl, fun r => ?_⟩
      simp [invoiceJoinRow]
  · rw [if_neg hcm]
    by_cases hinv : lk.isEmpty
    · rw [if_pos hinv]
      refine ⟨backfillRow entries, rfl, fun r => ?_⟩
      simp [backfillRow]
    · rw [if_neg hinv]
      refine ⟨fun r => invoiceJoinRow lk (backfillRow entries r), ?_, fun r => ?_⟩
      · rw [List.map_map]
        rfl
      · simp [backfillRow, invoiceJoinRow]

/-- `setKey` never changes the key list of the mapping. -/
theorem setKey_keys (m : List (String × Option Nat)) (k : String) (v : Option Nat) :
    (setKey m k v).map Prod.fst = m.map Prod.fst := by
  unfold setKey
  rw [List.map_map]
  apply List.map_congr_left
  intro kv _
  show (if (kv.1 == k) = true then (kv.1, v) else kv).1 = kv.1
  split <;> rfl

/-- The `latest_dates` mapping always carries exactly the four source keys. -/
theorem latestDatesOf_keys (rch : List (List ReportRow)) (dch : List (List DetailsRow))
    (ich : List (List InvoiceRow)) :
    (latestDatesOf rch dch ich).map Prod.fst =
      ["json", "csv_report", "csv_details", "invoice"] := by
  simp only [latestDatesOf]
  repeat' split
  all_goals simp [setKey_keys]

/-! ### C3 — uniqueness of `order_id` in the final report frame -/

/-- C3: in the report frame produced by the raw-parse path of
`scan_and_load` (i.e. the report frame of `_merge_data`, returned unchanged),
no two rows share the same `order_id`: deduplication keeps the first row per
`order_id` of the sorted pool, and the member back-fill and invoice join
rewrite rows pointwise without touching `order_id`. -/
theorem merged_report_order_ids_unique (rch : List (List ReportRow))
    (dch : List (List DetailsRow)) (ich : List (List InvoiceRow)) :
    (((mergeData rch dch ich).report).map (fun r => r.order_id)).Nodup := by
  show ((mergeReport rch ich).map (fun r => r.order_id)).Nodup
  by_cases h : rch.isEmpty
  · simp [mergeReport, h]
  · obtain ⟨f, heq, hf⟩ := mergeReport_as_map rch ich (eq_false_of_ne_true h)
    rw [heq, List.map_map]
    have hcomp : ((fun r => r.order_id) ∘ f) = fun r : ReportRow => r.order_id :=
      funext (fun r => (hf r).1)
    rw [hcomp]
    exact dedupBy_keys_nodup _ _

/-! ### C4 — referential integrity of the details frame -/

/-- C4 (counterexample): with no report chunks at all, the final report frame
is empty, the guard `not final_report.empty` skips the details filter, and the
details frame keeps a row whose `order_id` references nothing — the claimed
referential integrity fails as stated. -/
theorem details_orphan_when_report_empty :
    (mergeData [] [[orphanDetailsRow]] []).report = [] ∧
    (mergeData [] [[orphanDetailsRow]] []).details ≠ [] ∧
    ¬ (∀ d ∈ (mergeData [] [[orphanDetailsRow]] []).details,
        d.order_id ∈ ((mergeData [] [[orphanDetailsRow]] []).report).map
          (fun r => r.order_id)) := by
  refine ⟨rfl, by decide, ?_⟩
  intro hall
  have hmem := hall (fillSourceD orphanDetailsRow) (by decide)
  have hrep : (mergeData [] [[orphanDetailsRow]] []).report = [] := rfl
  rw [hrep] at hmem
  simp at hmem

/-- C4 (amended): provided the final report frame is non-empty, every row of
the final details frame has an `order_id` that occurs in the final report
frame (the filter on `valid_orders` runs and both later filters only shrink
the frame). -/
theorem details_reference_report_of_nonempty (rch : List (List ReportRow))
    (dch : List (List DetailsRow)) (ich : List (List InvoiceRow))
    (h : (mergeData rch dch ich).report ≠ []) :
    ∀ d ∈ (mergeData rch dch ich).details,
      d.order_id ∈ ((mergeData rch dch ich).report).map (fun r => r.order_id) := by
  intro d hd
  have hrep : (mergeData rch dch ich).report = mergeReport rch ich := rfl
  rw [hrep] at h ⊢
  have hdet : (mergeData rch dch ich).details =
      mergeDetails dch (mergeReport rch ich) := rfl
  rw [hdet] at hd
  unfold mergeDetails at hd
  by_cases hde : dch.isEmpty
  · rw [if_pos hde] at hd
    simp at hd
  · rw [if_neg hde] at hd
    have hre : (mergeReport rch ich).isEmpty = false := by
      cases hrl : mergeReport rch ich with
      | nil => exact absurd hrl h
      | cons a t => simp [hrl]
    rw [hre] at hd
    simp only [Bool.false_eq_true, if_false] at hd
    have hd1 := List.mem_filter.mp hd
    have hd2 := List.mem_filter.mp hd1.1
    have hcont := hd2.2
    simpa using hcont

/-- C4 (witness): a concrete run with one report chunk and one matching
details chunk satisfies the hypothesis and the conclusion. -/
theorem details_reference_report_witness :
    (mergeData [[sampleReportRow]] [[sampleDetailsRow]] []).report ≠ [] ∧
    (∀ d ∈ (mergeData [[sampleReportRow]] [[sampleDetailsRow]] []).details,
      d.order_id ∈ ((mergeData [[sampleReportRow]] [[sampleDetailsRow]] []).report).map
        (fun r => r.order_id)) :=
  ⟨by decide, details_reference_report_of_nonempty _ _ _ (by decide)⟩

/-! ### C9 — the `latest_dates` mapping -/

/-- C9 (counterexample): on the cache-hit path `scan_and_load` returns before
`_merge_data` runs, so the loader exposes no `latest_dates` mapping at all
(the attribute is never assigned; the app falls back to an empty dict via
`getattr`), refuting the claim for that path. -/
theorem cache_hit_latest_dates_absent :
    (scanAndLoad (some { reportCache := [], detailsCache := [] }) [] [] []).latestDates
      = none := rfl

/-- C9 (amended): after the raw-parse path of `scan_and_load`, the loader
exposes a `latest_dates` mapping carrying exactly the four keys `json`,
`csv_report`, `csv_details` and `invoice`. -/
theorem raw_parse_latest_dates_keys (rch : List (List ReportRow))
    (dch : List (List DetailsRow)) (ich : List (List InvoiceRow)) :
    ∃ m, (scanAndLoad none rch dch ich).latestDates = some m ∧
      m.map Prod.fst = ["json", "csv_report", "csv_details", "invoice"] :=
  ⟨latestDatesOf rch dch ich, rfl, latestDatesOf_keys rch dch ich⟩

/-! ### C5 — cold-cache versus warm-cache loads -/

/-- Casting a string-cast frame read back from the cache equals casting the
original frame. -/
theorem castFrame_round (f : List (List Cell)) :
    castFrame ((frameToStrings f).map (fun row => row.map Cell.str)) = castFrame f := by
  simp only [castFrame, frameToStrings, List.map_map]
  apply List.map_congr_left
  intro row _
  simp only [Function.comp_apply]
  rw [List.map_map, List.map_map]
  apply List.map_congr_left
  intro c _
  rfl

/-- C5 (counterexample): the cold run returns the typed frames while the warm
run returns the `astype(str)` parquet frames, so the two loads are not
byte-identical — on a one-row input the cold report frame holds a numeric
`total_amount` cell and the warm frame holds its string rendering. -/
theorem cold_warm_frames_differ :
    (scanAndLoad none [[sampleReportRow]] [] []).reportFrame ≠
      (scanAndLoad ((scanAndLoad none [[sampleReportRow]] [] []).cacheAfter)
        [[sampleReportRow]] [] []).reportFrame := by
  decide

/-- C5 (amended): the cold and warm loads agree after all columns are cast to
string — the warm frames are exactly the `astype(str)` images of the cold
frames, and the cast is idempotent. -/
theorem cold_warm_equal_after_string_cast (rch : List (List ReportRow))
    (dch : List (List DetailsRow)) (ich : List (List InvoiceRow)) :
    castFrame ((scanAndLoad ((scanAndLoad none rch dch ich).cacheAfter)
        rch dch ich).reportFrame) =
      castFrame ((scanAndLoad none rch dch ich).reportFrame) ∧
    castFrame ((scanAndLoad ((scanAndLoad none rch dch ich).cacheAfter)
        rch dch ich).detailsFrame) =
      castFrame ((scanAndLoad none rch dch ich).detailsFrame) :=
  ⟨castFrame_round _, castFrame_round _⟩

/-! ### C7 — content-based classification of tables with both id columns -/

/-- C7 (counterexample): a table carrying `invoice_id` and `order_id` but no
total-amount column and no item-name column is classified as nothing at all
(`_is_report` demands `total_amount`), not as `report` — though indeed not as
`invoice` either. -/
theorem both_ids_table_unclassified :
    classifyByContent ["invoice_id", "order_id"] "data.csv" = none ∧
    classifyByContent ["invoice_id", "order_id"] "data.csv" ≠ some FileKind.report := by
  decide

/-- C7 (amended): a parsed table with both an `invoice_id` and an `order_id`
column is never classified as `invoice` by the content-based fallback; it is
classified as `report` provided it also carries `total_amount` and does not
satisfy the details rule (which is checked first). -/
theorem both_ids_never_invoice (cols : List String) (fn : String)
    (hinv : "invoice_id" ∈ cols) (hord : "order_id" ∈ cols) :
    classifyByContent cols fn ≠ some FileKind.invoice ∧
    (isDetailsTable cols fn = false → "total_amount" ∈ cols →
      classifyByContent cols fn = some FileKind.report) := by
  have hordb : cols.contains "order_id" = true := by simpa using hord
  constructor
  · unfold classifyByContent isInvoiceTable
    rw [hordb]
    by_cases hdet : isDetailsTable cols fn <;> by_cases hrep : isReportTable cols <;>
      simp [hdet, hrep]
  · intro hdet htot
    have htotb : cols.contains "total_amount" = true := by simpa using htot
    unfold classifyByContent isReportTable
    rw [hdet, hordb, htotb]
    simp

/-- C7 (witness): a table with both id columns, a total, and no item-name
column is classified as `report` and not as `invoice`. -/
theorem both_ids_never_invoice_witness :
    classifyByContent ["invoice_id", "order_id", "total_amount"] "export.csv" ≠
      some FileKind.invoice ∧
    (isDetailsTable ["invoice_id", "order_id", "total_amount"] "export.csv" = false →
      "total_amount" ∈ ["invoice_id", "order_id", "total_amount"] →
      classifyByContent ["invoice_id", "order_id", "total_amount"] "export.csv" =
        some FileKind.report) :=
  both_ids_never_invoice _ _ (by decide) (by decide)

/-! ### C8 — the main-dish quantity bound -/

/-- `mask_no_mod` is the pointwise complement of `Is_Modifier`. -/
theorem maskNoMod_not_modifier (r : DetailsRow) : maskNoMod r = !(isModifierB r) := by
  unfold maskNoMod isModifierB
  cases hop : r.options with
  | none => simp
  | some s =>
    cases hds : (r.data_source == some "json") with
    | true => simp [hds]
    | false =>
      cases he : (pyTrim (pyStr (some s)) == "") with
      | true => simp [hds, he]
      | false => simp [hds, he]

/-- C8 (amended): provided every quantity of the details frame is
nonnegative, the summed `qty` of the main-dish rows of an order never exceeds
the summed `qty` of its non-modifier rows — a main dish is never a modifier,
so the first sum ranges over a sublist of the second. -/
theorem main_dish_qty_bound_of_nonneg (details : List DetailsRow) (oid : String)
    (hq : ∀ d ∈ details, 0 ≤ d.qty) :
    mainDishQtySum (enrichDetailsRows details) oid ≤
      nonModifierQtySum (enrichDetailsRows details) oid := by
  unfold mainDishQtySum nonModifierQtySum enrichDetailsRows
  rw [List.filter_map, List.filter_map, List.map_map, List.map_map]
  apply List.Sublist.sum_le_sum
  · apply List.Sublist.map
    apply List.monotone_filter_right
    intro d hd
    simp only [Function.comp_apply, Bool.and_eq_true] at hd ⊢
    refine ⟨?_, hd.2⟩
    have hmain := hd.1
    have h2 : maskNoMod d = true := by
      unfold isMainDishB at hmain
      exact ((Bool.and_eq_true _ _).mp hmain).2
    rw [maskNoMod_not_modifier] at h2
    simpa using h2
  · intro a ha
    rcases List.mem_map.mp ha with ⟨d, hd, heq⟩
    rcases List.mem_filter.mp hd with ⟨hdm, _⟩
    rw [← heq]
    exact hq d hdm

/-- C8 (counterexample): with a negative (refund-style) quantity on a
non-modifier, non-main-dish row, the main-dish sum exceeds the non-modifier
sum, so the bound fails as stated for arbitrary frames. -/
theorem main_dish_qty_bound_fails_negative :
    ¬ (mainDishQtySum (enrichDetailsRows [sampleDetailsRow, negQtyDetailsRow]) "R1" ≤
        nonModifierQtySum (enrichDetailsRows [sampleDetailsRow, negQtyDetailsRow]) "R1") := by
  decide

/-- C8 (witness): a one-row frame with nonnegative quantities satisfies the
hypothesis and the bound. -/
theorem main_dish_qty_bound_witness :
    (∀ d ∈ [sampleDetailsRow], (0 : Int) ≤ d.qty) ∧
    mainDishQtySum (enrichDetailsRows [sampleDetailsRow]) "R1" ≤
      nonModifierQtySum (enrichDetailsRows [sampleDetailsRow]) "R1" :=
  ⟨by decide, main_dish_qty_bound_of_nonneg [sampleDetailsRow] "R1" (by decide)⟩

/-! ### C10 — the people-count floor -/

theorem fixPeopleRow_ds (eds : List EnrichedDetails) (er : EnrichedReport) :
    (fixPeopleRow eds er).base.data_source = er.base.data_source := rfl

theorem fixPeopleRow_ot (eds : List EnrichedDetails) (er : EnrichedReport) :
    (fixPeopleRow eds er).base.order_type = er.base.order_type := rfl

/-- C10: after `enrich_data` with a non-empty details frame, every report row
that is JSON-sourced or whose order type is 外送/外帶/自取 has
`people_count ≥ 1`, even when the order has no main-dish rows: both branches
of `fix_people_count` for such rows return a `max` with `1`. -/
theorem people_count_at_least_one (report : List ReportRow) (details : List DetailsRow)
    (hd : details ≠ []) (er : EnrichedReport)
    (hmem : er ∈ (enrichData report details).1)
    (hcase : er.base.data_source = some "json" ∨
      ∃ t, er.base.order_type = some t ∧ t ∈ ["外送", "外帶", "自取"]) :
    1 ≤ er.base.people_count.getD 0 := by
  have hde : details.isEmpty = false := by
    cases details with
    | nil => exact absurd rfl hd
    | cons a t => rfl
  simp only [enrichData, hde, Bool.false_eq_true, if_false] at hmem
  rcases List.mem_map.mp hmem with ⟨e0, he0, heq⟩
  rw [← heq] at hcase ⊢
  rw [fixPeopleRow_ds, fixPeopleRow_ot] at hcase
  have hcond : (e0.base.data_source == some "json" ||
      (match e0.base.order_type with
       | some t => ["外送", "外帶", "自取"].contains t
       | none => false)) = true := by
    rcases hcase with h | ⟨t, hot, htm⟩
    · simp [h]
    · rw [hot]
      simp only [Bool.or_eq_true]
      right
      simpa using htm
  show 1 ≤ (some (if (e0.base.data_source == some "json" ||
      (match e0.base.order_type with
       | some t => ["外送", "外帶", "自取"].contains t
       | none => false)) = true then
        (if 0 < mainDishCount (enrichDetailsRows details) e0.base.order_id then
          max (mainDishCount (enrichDetailsRows details) e0.base.order_id) 1
         else max (e0.base.people_count.getD 0) 1)
      else max (e0.base.people_count.getD 0)
        (mainDishCount (enrichDetailsRows details) e0.base.order_id))).getD 0
  rw [if_pos hcond, Option.getD_some]
  split
  · exact le_max_right _ 1
  · exact le_max_right _ 1

/-- C10 (witness): a JSON takeout order with only a modifier row (no main
dish) still gets `people_count = 1`. -/
theorem people_count_at_least_one_witness :
    ([modifierOnlyDetailsRow] ≠ ([] : List DetailsRow)) ∧
    1 ≤ (((enrichData [jsonPeopleRow] [modifierOnlyDetailsRow]).1).headD
      { base := jsonPeopleRow, memberId := none, orderCategory := "" }).base.people_count.getD 0 :=
  ⟨by decide, people_count_at_least_one [jsonPeopleRow] [modifierOnlyDetailsRow]
    (by decide) _ (by decide) (Or.inl (by decide))⟩

/-! ### C2 — the concrete carrier-backfill scenario -/

/-- C2: on the six-order input of the repository's carrier-mapping test,
enrichment resolves orders `004` and `005` (valid carrier, no valid phone) to
`CRM_0922222222` — the phone of the group ranked first for carrier
`/ABCD123` by Frequency desc, Recency desc, Monetary desc (太太 with
Frequency 2 beats 老公 with Frequency 1) — and resolves order `006`, whose
carrier `/ALONE99` never co-occurred with a valid phone, to
`Carrier_/ALONE99`. -/
theorem carrier_backfill_scenario :
    carrierToPhone carrierScenario "/ABCD123" = some "0922222222" ∧
    memberIdOf (enrichData carrierScenario []).1 "004" = some (some "CRM_0922222222") ∧
    memberIdOf (enrichData carrierScenario []).1 "005" = some (some "CRM_0922222222") ∧
    memberIdOf (enrichData carrierScenario []).1 "006" = some (some "Carrier_/ALONE99") := by
  decide

/-! ### C6 — status normalisation in the final report frame -/

theorem fillSource_status (r : ReportRow) : (fillSource r).status = r.status := rfl

theorem fillSource_ds (r : ReportRow) :
    (fillSource r).data_source = some (r.data_source.getD "csv") := rfl

/-- Every row surviving `_clean_report` carries a lower-cased status outside
the invalid set, and its `data_source` comes from some raw row. -/
theorem cleanReport_status (raw : List ReportRow) (r : ReportRow) (h : r ∈ cleanReport raw) :
    (∃ s, r.status = some s ∧ noUpper s = true ∧ s ∉ invalidReportStatuses) ∧
    ∃ r0 ∈ raw, r.data_source = r0.data_source := by
  unfold cleanReport at h
  rcases List.mem_filter.mp h with ⟨h5, hpred⟩
  rcases List.mem_map.mp h5 with ⟨r4, h4, heq5⟩
  rcases List.mem_map.mp h4 with ⟨r3, h3, heq4⟩
  rcases List.mem_map.mp h3 with ⟨r2, h2, heq3⟩
  rcases List.mem_filter.mp h2 with ⟨h1, _⟩
  rcases List.mem_map.mp h1 with ⟨r0, h0, heq1⟩
  constructor
  · refine ⟨normStatus r4.status, by rw [← heq5], noUpper_asciiLower _, ?_⟩
    intro hmem
    rw [← heq5] at hpred
    simp [pyStr] at hpred
    exact hpred hmem
  · refine ⟨r0, h0, ?_⟩
    rw [← heq5, ← heq4, ← heq3, ← heq1]

/-- Every report row emitted by the JSON path carries the literal status
`COMPLETED` and the source tag `json`. -/
theorem processJson_report_status (os : List JsonOrder) (r : ReportRow)
    (h : r ∈ (processJsonOrders os).1) :
    r.status = some "COMPLETED" ∧ r.data_source = some "json" := by
  unfold processJsonOrders at h
  simp only at h
  rcases List.mem_map.mp h with ⟨o, ho, heq⟩
  rcases List.mem_filter.mp ho with ⟨_, hst⟩
  constructor
  · rw [← heq]
    show some o.status = some "COMPLETED"
    exact congrArg some (by simpa using hst)
  · rw [← heq]
    rfl

/-- C6 (counterexample): a JSON-sourced order survives the merge with the
literal status `COMPLETED`, which contains uppercase letters — the final
report frame is not uniformly lower-cased, because `_clean_report` never runs
on JSON rows. -/
theorem json_status_not_lowercased :
    ((mergeReport [(processJsonOrders [completedJsonOrder]).1] []).map
      (fun r => r.status)) = [some "COMPLETED"] ∧
    noUpper "COMPLETED" = false := by
  decide

/-- C6 (amended): when every report chunk comes from `_clean_report` (on a
frame without a `data_source` column) or from the JSON path, every status in
the final report frame lies outside the invalid set; CSV-sourced rows are
additionally lower-cased, while JSON-sourced rows carry exactly
`COMPLETED`. -/
theorem merged_status_normalized (chunks : List (List ReportRow))
    (invs : List (List InvoiceRow))
    (hsrc : ∀ ch ∈ chunks,
      (∃ raw, ch = cleanReport raw ∧ ∀ r0 ∈ raw, r0.data_source = none) ∨
      (∃ os, ch = (processJsonOrders os).1)) :
    ∀ r ∈ mergeReport chunks invs, ∀ s, r.status = some s →
      s ∉ invalidReportStatuses ∧
      (r.data_source = some "csv" → noUpper s = true) ∧
      (r.data_source = some "json" → s = "COMPLETED") := by
  intro r hr s hs
  by_cases hce : chunks.isEmpty
  · exfalso
    have hempty : mergeReport chunks invs = [] := by simp [mergeReport, hce]
    rw [hempty] at hr
    simp at hr
  · obtain ⟨f, heqm, hf⟩ := mergeReport_as_map chunks invs (eq_false_of_ne_true hce)
    rw [heqm] at hr
    rcases List.mem_map.mp hr with ⟨r1, hr1, hfr⟩
    have hr1s : r1 ∈ ((chunks.flatten).map fillSource).insertionSort reportLE :=
      dedupBy_subset _ _ _ hr1
    have hr1p : r1 ∈ (chunks.flatten).map fillSource :=
      (List.perm_insertionSort reportLE _).mem_iff.mp hr1s
    rcases List.mem_map.mp hr1p with ⟨r0, hr0, hfill⟩
    rcases List.mem_flatten.mp hr0 with ⟨ch, hch, hr0ch⟩
    obtain ⟨hfid, hftot, hfst, hfds⟩ := hf r1
    rw [← hfr, hfst] at hs
    rw [← hfr, hfds]
    rw [← hfill, fillSource_status] at hs
    rw [← hfill, fillSource_ds]
    rcases hsrc ch hch with ⟨raw, hchq, hnone⟩ | ⟨os, hchq⟩
    · rw [hchq] at hr0ch
      obtain ⟨⟨s0, hst0, hup, hinval⟩, ⟨rr, hrr, hdsr⟩⟩ := cleanReport_status raw r0 hr0ch
      rw [hst0] at hs
      have hss : s = s0 := (Option.some.inj hs).symm
      subst hss
      have hds0 : r0.data_source = none := by rw [hdsr]; exact hnone rr hrr
      rw [hds0]
      refine ⟨hinval, fun _ => hup, fun hcon => ?_⟩
      exfalso
      have hcj : ("csv" : String) = "json" := Option.some.inj hcon
      exact absurd hcj (by decide)
    · rw [hchq] at hr0ch
      obtain ⟨hst0, hds0⟩ := processJson_report_status os r0 hr0ch
      rw [hst0] at hs
      have hss : s = "COMPLETED" := (Option.some.inj hs).symm
      subst hss
      rw [hds0]
      refine ⟨by decide, fun hcon => ?_, fun _ => rfl⟩
      exfalso
      have hjc : ("json" : String) = "csv" := Option.some.inj hcon
      exact absurd hjc (by decide)

/-- C6 (witness): one cleaned CSV chunk (mixed-case raw status ` Paid `) and
one JSON chunk satisfy the provenance hypothesis, so the conclusion holds on
their merge. -/
theorem merged_status_normalized_witness :
    (∀ ch ∈ [cleanReport [rawStatusRow], (processJsonOrders [completedJsonOrder]).1],
      (∃ raw, ch = cleanReport raw ∧ ∀ r0 ∈ raw, r0.data_source = none) ∨
      (∃ os, ch = (processJsonOrders os).1)) ∧
    (∀ r ∈ mergeReport [cleanReport [rawStatusRow],
        (processJsonOrders [completedJsonOrder]).1] [],
      ∀ s, r.status = some s →
        s ∉ invalidReportStatuses ∧
        (r.data_source = some "csv" → noUpper s = true) ∧
        (r.data_source = some "json" → s = "COMPLETED")) := by
  have hsrc : ∀ ch ∈ [cleanReport [rawStatusRow],
      (processJsonOrders [completedJsonOrder]).1],
      (∃ raw, ch = cleanReport raw ∧ ∀ r0 ∈ raw, r0.data_source = none) ∨
      (∃ os, ch = (processJsonOrders os).1) := by
    intro ch hch
    rcases List.mem_cons.mp hch with h | hch2
    · exact Or.inl ⟨[rawStatusRow], h, by decide⟩
    · rcases List.mem_cons.mp hch2 with h | h3
      · exact Or.inr ⟨[completedJsonOrder], h⟩
      · simp at h3
  exact ⟨hsrc, merged_status_normalized _ _ hsrc⟩

/-! ### C1 — JSON precedence with CSV member back-fill -/


theorem reportLE_total (a b : ReportRow) : reportLE a b ∨ reportLE b a := by
  unfold reportLE reportLEb
  by_cases hlt : strLtB a.order_id b.order_id = true
  · left; simp [hlt]
  · by_cases hgt : strLtB b.order_id a.order_id = true
    · right; simp [hgt]
    · have heq : a.order_id = b.order_id :=
        strLtB_connex (by simpa using hlt) (by simpa using hgt)
      rcases strLeB_total (srcStr b) (srcStr a) with h | h
      · left; simp [heq, h]
      · right; simp [heq, h]

theorem reportLE_trans (a b c : ReportRow) (hab : reportLE a b) (hbc : reportLE b c) :
    reportLE a c := by
  unfold reportLE reportLEb at hab hbc ⊢
  simp only [Bool.or_eq_true, Bool.and_eq_true, beq_iff_eq] at hab hbc ⊢
  rcases hab with hab | ⟨hab, habs⟩
  · rcases hbc with hbc | ⟨hbc, _⟩
    · exact Or.inl (strLtB_trans hab hbc)
    · exact Or.inl (hbc ▸ hab)
  · rcases hbc with hbc | ⟨hbc, hbcs⟩
    · exact Or.inl (hab ▸ hbc)
    · exact Or.inr ⟨hab.trans hbc, strLeB_trans hbcs habs⟩

theorem not_both_none_bool (a b : Option String) (hnb : ¬(a = none ∧ b = none)) :
    (!(a == none && b == none)) = true := by
  cases a with
  | none =>
    cases b with
    | none => exact absurd ⟨rfl, rfl⟩ hnb
    | some y => simp
  | some x => simp

theorem csvMembers_entry (sorted : List ReportRow) (oid : String) (c : ReportRow)
    (hc : c ∈ sorted) (hcds : c.data_source = some "csv") (hcid : c.order_id = oid)
    (huniqcsv : ∀ y ∈ sorted, y.data_source = some "csv" → y.order_id = oid → y = c)
    (hnb : ¬(normCell c.member_phone = none ∧ normCell c.customer_name = none)) :
    (csvMembers sorted).find? (fun e => e.order_id == oid) =
      some { order_id := oid, member_phone := normCell c.member_phone,
             customer_name := normCell c.customer_name } := by
  unfold csvMembers
  rw [find?_eq_head_filter, dedupBy_filter_key]
  set ec : CsvMemberEntry :=
    { order_id := oid, member_phone := normCell c.member_phone,
      customer_name := normCell c.customer_name } with hec
  have hfind :
      (((sorted.filter (fun r => r.data_source == some "csv")).map
          (fun r => { order_id := r.order_id, member_phone := normCell r.member_phone,
                      customer_name := normCell r.customer_name : CsvMemberEntry })).filter
        (fun e => !(e.member_phone == none && e.customer_name == none))).find?
        (fun e => e.order_id == oid) = some ec := by
    apply find?_key_eq_of_unique (fun e => e.order_id) _ oid ec
    · apply List.mem_filter.mpr
      constructor
      · apply List.mem_map.mpr
        refine ⟨c, List.mem_filter.mpr ⟨hc, by simp [hcds]⟩, ?_⟩
        rw [hec, hcid]
      · rw [hec]
        exact not_both_none_bool _ _ hnb
    · rfl
    · intro e he hek
      rcases List.mem_filter.mp he with ⟨hemap, _⟩
      rcases List.mem_map.mp hemap with ⟨y, hy, heqy⟩
      rcases List.mem_filter.mp hy with ⟨hys, hydsb⟩
      have hyds : y.data_source = some "csv" := by simpa using hydsb
      have hyk : y.order_id = oid := by
        rw [← heqy] at hek
        exact hek
      have hyc : y = c := huniqcsv y hys hyds hyk
      rw [← heqy, hyc, hec, hcid]
  rw [hfind]
  rfl

theorem invoiceJoinRow_phone (lk : List InvoiceRow) (r : ReportRow) :
    (invoiceJoinRow lk r).member_phone = r.member_phone := rfl

theorem invoiceJoinRow_name (lk : List InvoiceRow) (r : ReportRow) :
    (invoiceJoinRow lk r).customer_name = r.customer_name := rfl

theorem backfillRow_oid (e : List CsvMemberEntry) (r : ReportRow) :
    (backfillRow e r).order_id = r.order_id := rfl

theorem backfillRow_total (e : List CsvMemberEntry) (r : ReportRow) :
    (backfillRow e r).total_amount = r.total_amount := rfl

theorem invoiceJoinRow_oid (lk : List InvoiceRow) (r : ReportRow) :
    (invoiceJoinRow lk r).order_id = r.order_id := rfl

theorem invoiceJoinRow_total (lk : List InvoiceRow) (r : ReportRow) :
    (invoiceJoinRow lk r).total_amount = r.total_amount := rfl

/-- C1: when an `order_id` is carried by exactly one JSON-sourced row and one
CSV-sourced row of the concatenated report pool, the row surviving
merge/deduplication is unique, keeps the JSON row's `total_amount`, and —
whenever the JSON row's `member_phone` (resp. `customer_name`) is
empty/missing while the CSV row's is non-empty — carries the CSV row's
value, via the preserved CSV member lookup. -/
theorem report_merge_json_precedence
    (chunks : List (List ReportRow)) (invs : List (List InvoiceRow))
    (oid : String) (j c : ReportRow)
    (hj : j ∈ reportPool chunks) (hc : c ∈ reportPool chunks)
    (hjid : j.order_id = oid) (hcid : c.order_id = oid)
    (hjds : j.data_source = some "json") (hcds : c.data_source = some "csv")
    (huniq : ∀ r ∈ reportPool chunks, r.order_id = oid → r = j ∨ r = c) :
    ∃ r ∈ mergeReport chunks invs,
      r.order_id = oid ∧ r.total_amount = j.total_amount ∧
      (∀ r2 ∈ mergeReport chunks invs, r2.order_id = oid → r2 = r) ∧
      (normCell j.member_phone = none → ∀ p, normCell c.member_phone = some p →
        r.member_phone = some p) ∧
      (normCell j.customer_name = none → ∀ nm, normCell c.customer_name = some nm →
        r.customer_name = some nm) := by
  haveI : IsTotal ReportRow reportLE := ⟨reportLE_total⟩
  haveI : IsTrans ReportRow reportLE := ⟨fun a b c => reportLE_trans a b c⟩
  have hne : chunks.isEmpty = false := by
    cases chunks with
    | nil => simp [reportPool] at hj
    | cons a t => rfl
  unfold reportPool at hj hc huniq
  set pool := (chunks.flatten).map fillSource with hpool
  set sorted := pool.insertionSort reportLE with hsortdef
  have hperm : sorted.Perm pool := List.perm_insertionSort reportLE pool
  have hsortd : List.Sorted reportLE sorted := List.sorted_insertionSort reportLE pool
  have hjc : reportLE j c := by
    unfold reportLE reportLEb srcStr
    rw [hjid, hcid, hjds, hcds]
    simp only [beq_self_eq_true, Bool.true_and, Option.getD_some]
    have h1 : strLeB "csv" "json" = true := by decide
    rw [h1, Bool.or_true]
  have hcj : ¬ reportLE c j := by
    unfold reportLE reportLEb srcStr
    rw [hjid, hcid, hjds, hcds]
    intro hcon
    simp only [beq_self_eq_true, Bool.true_and, Option.getD_some] at hcon
    rw [strLtB_irrefl] at hcon
    have h2 : strLeB "json" "csv" = false := by decide
    rw [h2] at hcon
    simp at hcon
  have hfind : sorted.find? (fun z => z.order_id == oid) = some j := by
    apply find?_key_of_sorted_min (fun r => r.order_id) sorted oid j hsortd
      (hperm.mem_iff.mpr hj) hjid
    intro y hy hyk
    rcases huniq y (hperm.mem_iff.mp hy) hyk with h | h
    · exact Or.inl h
    · rw [h]
      exact Or.inr ⟨hjc, hcj⟩
  set deduped := dedupBy (fun r => r.order_id) sorted with hdedupdef
  have hdfilter : deduped.filter (fun x => x.order_id == oid) = [j] := by
    rw [hdedupdef, dedupBy_filter_key, hfind]
    rfl
  have hjdedup : j ∈ deduped := by
    have hjf : j ∈ deduped.filter (fun x => x.order_id == oid) := by
      rw [hdfilter]
      exact List.mem_singleton.mpr rfl
    exact (List.mem_filter.mp hjf).1
  have huniqdd : ∀ x ∈ deduped, x.order_id = oid → x = j := by
    intro x hx hxk
    have hxf : x ∈ deduped.filter (fun z => z.order_id == oid) :=
      List.mem_filter.mpr ⟨hx, by simp [hxk]⟩
    rw [hdfilter] at hxf
    simpa using hxf
  have huniqcsv : ∀ y ∈ sorted, y.data_source = some "csv" → y.order_id = oid → y = c := by
    intro y hy hyds hyk
    rcases huniq y (hperm.mem_iff.mp hy) hyk with h | h
    · rw [h, hjds] at hyds
      exact absurd (Option.some.inj hyds) (by decide)
    · exact h
  have hcs : c ∈ sorted := hperm.mem_iff.mpr hc
  simp only [mergeReport, hne, Bool.false_eq_true, if_false]
  rw [← hpool, ← hsortdef, ← hdedupdef]
  set entries := csvMembers sorted with hentriesdef
  set lk := dedupByLast (fun v => v.invoice_id) invs.flatten with hlkdef
  have habsent : entries.isEmpty = true →
      ¬(normCell c.member_phone = none ∧ normCell c.customer_name = none) → False := by
    intro hcm hnb
    have hentry := csvMembers_entry sorted oid c hcs hcds hcid huniqcsv hnb
    rw [← hentriesdef, List.isEmpty_iff.mp hcm] at hentry
    simp at hentry
  have hentryval : ¬(normCell c.member_phone = none ∧ normCell c.customer_name = none) →
      entries.find? (fun e => e.order_id == oid) =
        some { order_id := oid, member_phone := normCell c.member_phone,
               customer_name := normCell c.customer_name } := by
    intro hnb
    rw [hentriesdef]
    exact csvMembers_entry sorted oid c hcs hcds hcid huniqcsv hnb
  by_cases hcm : entries.isEmpty
  · rw [if_pos hcm]
    by_cases hinv : lk.isEmpty
    · rw [if_pos hinv]
      refine ⟨j, hjdedup, hjid, rfl, huniqdd, ?_, ?_⟩
      · intro hjp p hcp
        exfalso
        refine habsent hcm ?_
        intro hand
        rw [hand.1] at hcp
        exact Option.noConfusion hcp
      · intro hjn nm hcn
        exfalso
        refine habsent hcm ?_
        intro hand
        rw [hand.2] at hcn
        exact Option.noConfusion hcn
    · rw [if_neg hinv]
      refine ⟨invoiceJoinRow lk j, List.mem_map.mpr ⟨j, hjdedup, rfl⟩,
        by rw [invoiceJoinRow_oid]; exact hjid,
        by rw [invoiceJoinRow_total], ?_, ?_, ?_⟩
      · intro r2 hr2 hr2k
        rcases List.mem_map.mp hr2 with ⟨x, hx, heqx⟩
        rw [← heqx] at hr2k
        rw [invoiceJoinRow_oid] at hr2k
        rw [← heqx, huniqdd x hx hr2k]
      · intro hjp p hcp
        exfalso
        refine habsent hcm ?_
        intro hand
        rw [hand.1] at hcp
        exact Option.noConfusion hcp
      · intro hjn nm hcn
        exfalso
        refine habsent hcm ?_
        intro hand
        rw [hand.2] at hcn
        exact Option.noConfusion hcn
  · rw [if_neg hcm]
    have hbfphone : ∀ p, normCell j.member_phone = none →
        normCell c.member_phone = some p →
        (backfillRow entries j).member_phone = some p := by
      intro p hjp hcp
      have hnb : ¬(normCell c.member_phone = none ∧ normCell c.customer_name = none) := by
        intro hand
        rw [hand.1] at hcp
        exact Option.noConfusion hcp
      have hentry := hentryval hnb
      show (normCell j.member_phone).orElse
        (fun _ => (entries.find? (fun e => e.order_id == j.order_id)).bind
          (fun e => e.member_phone)) = some p
      rw [hjid, hjp, hentry]
      show normCell c.member_phone = some p
      exact hcp
    have hbfname : ∀ nm, normCell j.customer_name = none →
        normCell c.customer_name = some nm →
        (backfillRow entries j).customer_name = some nm := by
      intro nm hjn hcn
      have hnb : ¬(normCell c.member_phone = none ∧ normCell c.customer_name = none) := by
        intro hand
        rw [hand.2] at hcn
        exact Option.noConfusion hcn
      have hentry := hentryval hnb
      show (normCell j.customer_name).orElse
        (fun _ => (entries.find? (fun e => e.order_id == j.order_id)).bind
          (fun e => e.customer_name)) = some nm
      rw [hjid, hjn, hentry]
      show normCell c.customer_name = some nm
      exact hcn
    by_cases hinv : lk.isEmpty
    · rw [if_pos hinv]
      refine ⟨backfillRow entries j, List.mem_map.mpr ⟨j, hjdedup, rfl⟩,
        by rw [backfillRow_oid]; exact hjid,
        by rw [backfillRow_total], ?_, ?_, ?_⟩
      · intro r2 hr2 hr2k
        rcases List.mem_map.mp hr2 with ⟨x, hx, heqx⟩
        rw [← heqx] at hr2k
        rw [backfillRow_oid] at hr2k
        rw [← heqx, huniqdd x hx hr2k]
      · intro hjp p hcp
        exact hbfphone p hjp hcp
      · intro hjn nm hcn
        exact hbfname nm hjn hcn
    · rw [if_neg hinv]
      rw [List.map_map]
      refine ⟨invoiceJoinRow lk (backfillRow entries j),
        List.mem_map.mpr ⟨j, hjdedup, rfl⟩,
        by rw [invoiceJoinRow_oid, backfillRow_oid]; exact hjid,
        by rw [invoiceJoinRow_total, backfillRow_total], ?_, ?_, ?_⟩
      · intro r2 hr2 hr2k
        rcases List.mem_map.mp hr2 with ⟨x, hx, heqx⟩
        rw [← heqx] at hr2k ⊢
        have hxk : x.order_id = oid := by
          rw [Function.comp_apply, invoiceJoinRow_oid, backfillRow_oid] at hr2k
          exact hr2k
        rw [huniqdd x hx hxk]
        rfl
      · intro hjp p hcp
        rw [invoiceJoinRow_phone]
        exact hbfphone p hjp hcp
      · intro hjn nm hcn
        rw [invoiceJoinRow_name]
        exact hbfname nm hjn hcn

/-- C1 (witness): order `77` occurs in a JSON chunk (total 500, blank member
fields) and in a CSV chunk (total 480, phone and name present); the surviving
row keeps total 500 and adopts the CSV phone and name. -/
theorem report_merge_json_precedence_witness :
    ∃ r ∈ mergeReport [[jsonPrecRow], [csvPrecRow]] [],
      r.order_id = "77" ∧ r.total_amount = jsonPrecRow.total_amount ∧
      (∀ r2 ∈ mergeReport [[jsonPrecRow], [csvPrecRow]] [], r2.order_id = "77" → r2 = r) ∧
      (normCell jsonPrecRow.member_phone = none → ∀ p,
        normCell (fillSource csvPrecRow).member_phone = some p → r.member_phone = some p) ∧
      (normCell jsonPrecRow.customer_name = none → ∀ nm,
        normCell (fillSource csvPrecRow).customer_name = some nm → r.customer_name = some nm) :=
  report_merge_json_precedence [[jsonPrecRow], [csvPrecRow]] [] "77" jsonPrecRow
    (fillSource csvPrecRow) (by decide) (by decide) (by decide) (by decide) (by decide)
    (by decide) (by decide)
